import Mathlib

/-!
Verification of the qontract-validator core (bundle / traverse / postprocess_v2 /
validator_v2) against its natural-language specification.

The Python code manipulates JSON-like values loaded with `json.load`: every
dict key is a string, `None` is JSON null, and object key order is insertion
order.  We embed such values as the inductive `JSON` below, with association
lists for objects (preserving insertion order, Python dict semantics: lookup
finds the first binding, assignment replaces in place or appends).

External libraries (jsonschema's structural validator, `requests`, `hashlib`,
`yaml`) are outside this repository; per the spec they are black boxes.  They
are modelled as total oracle parameters; the identifier digest (`hashlib.md5`)
is modelled as an arbitrary function of the exact string sequence the source
feeds it, which suffices for every claim about it.
-/

inductive JSON where
  | null
  | b (v : Bool)
  | i (n : Int)
  | s (v : String)
  | arr (items : List JSON)
  | obj (entries : List (String × JSON))
deriving Repr

abbrev Dict := List (String × JSON)

/-- Python `d.get(k)` returning the first binding, `None` (null) when absent.
Python's `None` and JSON `null` are the same value, so absent keys and
null-valued keys are both null here, exactly as in the source. -/
def dGet (d : Dict) (k : String) : JSON :=
  match d with
  | [] => .null
  | (k', v) :: rest => if k' = k then v else dGet rest k

/-- Python `k in d` membership test on a dict. -/
def dMem (d : Dict) (k : String) : Bool :=
  match d with
  | [] => false
  | (k', _) :: rest => k' = k || dMem rest k

/-- Python `d[k] = v`: replace in place when the key exists, append otherwise. -/
def dInsert (d : Dict) (k : String) (v : JSON) : Dict :=
  match d with
  | [] => [(k, v)]
  | (k', v') :: rest => if k' = k then (k, v) :: rest else (k', v') :: dInsert rest k v

/-- First binding of a key in an association list, used by dict equality. -/
def dFind? (d : List (String × JSON)) (k : String) : Option JSON :=
  match d with
  | [] => none
  | (k', v) :: rest => if k' = k then some v else dFind? rest k

mutual

/-- Python `==` on JSON-like values.  Python's `bool` is a subclass of `int`,
so `True == 1` and `False == 0`; dict comparison is key-based and
order-insensitive (dicts produced by `json.load` have unique keys). -/
def pyEq : JSON → JSON → Bool
  | .null, .null => true
  | .b x, .b y => x == y
  | .b x, .i n => (if x then (1 : Int) else 0) == n
  | .i n, .b x => n == (if x then (1 : Int) else 0)
  | .i x, .i y => x == y
  | .s x, .s y => x == y
  | .arr xs, .arr ys => pyEqList xs ys
  | .obj xs, .obj ys => xs.length == ys.length && pyEqEntries xs ys
  | _, _ => false

/-- Elementwise Python equality of two lists. -/
def pyEqList : List JSON → List JSON → Bool
  | [], [] => true
  | x :: xs, y :: ys => pyEq x y && pyEqList xs ys
  | _, _ => false

/-- Every binding of the first dict is matched by key in the second. -/
def pyEqEntries : List (String × JSON) → List (String × JSON) → Bool
  | [], _ => true
  | (k, v) :: rest, other =>
    (match dFind? other k with
     | some v' => pyEq v v'
     | none => false) && pyEqEntries rest other

end


/-- Python truthiness of a JSON value. -/
def pyTruthy : JSON → Bool
  | .null => false
  | .b v => v
  | .i n => n ≠ 0
  | .s v => v ≠ ""
  | .arr items => !items.isEmpty
  | .obj entries => !entries.isEmpty

/-- Python `j.get(k)` on a value the source guards to be a dict (via
`isinstance(x, dict)` or a type annotation); on a non-dict the source could
not reach this call, and we return null. -/
def jGet (j : JSON) (k : String) : JSON :=
  match j with
  | .obj d => dGet d k
  | _ => .null

/-- Python `j.get(k, default)` with an explicit default. -/
def jGetD (j : JSON) (k : String) (dflt : JSON) : JSON :=
  match j with
  | .obj d => if dMem d k then dGet d k else dflt
  | _ => dflt

/-- Python `k in j` for the shapes the source applies it to (dict key
membership, list membership, substring test on strings). -/
def jHasKey (k : String) (j : JSON) : Bool :=
  match j with
  | .obj d => dMem d k
  | .arr items => items.any (fun x => pyEq x (.s k))
  | .s v => k.isEmpty || (v.splitOn k).length > 1
  | _ => false

/-- Python `d.get(key)` when the key is an arbitrary value: string-keyed dicts
match a `bool`/`int` key never and a string key by string equality. -/
def dGetByVal (d : Dict) (k : JSON) : JSON :=
  match k with
  | .s key => dGet d key
  | _ => .null

example : dGet [("a", .i 1), ("b", .i 2)] "b" = .i 2 := rfl
example : dInsert [("a", .i 1), ("b", .i 2)] "a" (.i 9) = [("a", .i 9), ("b", .i 2)] := rfl
example : dInsert [("a", .i 1)] "c" (.i 3) = [("a", .i 1), ("c", .i 3)] := rfl
example : pyTruthy (.s "") = false := rfl
example : jHasKey "x" (.obj [("x", .null)]) = true := rfl
example : pyEq (.b true) (.i 1) = true := rfl
example : pyEq (.obj [("a", .i 1), ("b", .i 2)]) (.obj [("b", .i 2), ("a", .i 1)]) = true := rfl

/-- Python `x is None`. -/
def isNull : JSON → Bool
  | .null => true
  | _ => false

/-- Python `j.get(k)` where the key is an arbitrary value and `j` is a dict
whose keys are strings (every dict parsed from JSON). -/
def jGetByVal (j : JSON) (k : JSON) : JSON :=
  match j with
  | .obj d => dGetByVal d k
  | _ => .null

/-- Association list keyed by arbitrary JSON values (a Python dict whose keys
are data values): first-match lookup under Python equality. -/
def vGet {α : Type} (entries : List (JSON × α)) (k : JSON) : Option α :=
  match entries with
  | [] => none
  | (k', v) :: rest => if pyEq k' k then some v else vGet rest k

/-- Python `d[k] = v` on a value-keyed dict: replace in place or append. -/
def vInsert {α : Type} (entries : List (JSON × α)) (k : JSON) (v : α) : List (JSON × α) :=
  match entries with
  | [] => [(k, v)]
  | (k', v') :: rest => if pyEq k' k then (k, v) :: rest else (k', v') :: vInsert rest k v

/-- Python exceptions that escape the functions modelled here. -/
inductive PyErr where
  | keyError (k : JSON)
  | attributeError (msg : String)
  | typeError (msg : String)
  | invalidBundleError (msg : String)
  | missingSchemaFileError (path : JSON)
deriving Repr

/-- In-memory record type from the v2 catalog, `GraphqlTypeV2` in
src/validator/bundle.py (lines 64-128).  Raw JSON is kept where the dataclass
stores raw dict values. -/
structure GraphqlTypeV2 where
  name : JSON
  fields : List (JSON × JSON)
  datafile : JSON
  isInterface : JSON
  interfaceResolve : JSON
deriving Repr

/-- `GraphqlTypeV2.get_field` (bundle.py line 72): `fields.get(field_name)`,
null when absent. -/
def GraphqlTypeV2.getField (t : GraphqlTypeV2) (fieldName : JSON) : JSON :=
  (vGet t.fields fieldName).getD .null

/-- `GraphqlTypeV2.is_interface_field_map` (bundle.py lines 75-80).  On a
catalog whose `interfaceResolve` is a truthy non-dict Python would raise
inside `.get`; such catalogs are malformed and out of scope. -/
def GraphqlTypeV2.isInterfaceFieldMap (t : GraphqlTypeV2) : Bool :=
  pyTruthy t.isInterface && !isNull t.interfaceResolve &&
    pyEq (jGet t.interfaceResolve "strategy") (.s "fieldMap")

/-- `GraphqlTypeV2.interface_resolve_field_name` (bundle.py lines 82-85). -/
def GraphqlTypeV2.interfaceResolveFieldName (t : GraphqlTypeV2) : JSON :=
  if t.isInterfaceFieldMap && pyTruthy t.interfaceResolve then
    jGet t.interfaceResolve "field"
  else .null

/-- `GraphqlTypeV2.resolve_interface_field_value` (bundle.py lines 87-92). -/
def GraphqlTypeV2.resolveInterfaceFieldValue (t : GraphqlTypeV2) (data : JSON) : JSON :=
  if pyTruthy t.interfaceResolveFieldName then
    match data with
    | .obj d => dGetByVal d t.interfaceResolveFieldName
    | _ => .null
  else .null

/-- `GraphqlTypeV2.resolve_interface_type_name` (bundle.py lines 94-101). -/
def GraphqlTypeV2.resolveInterfaceTypeName (t : GraphqlTypeV2) (data : JSON) : JSON :=
  if pyTruthy t.interfaceResolve then
    let fieldMap := jGet t.interfaceResolve "fieldMap"
    if pyTruthy fieldMap then
      let fieldValue := t.resolveInterfaceFieldValue data
      if pyTruthy fieldValue then jGetByVal fieldMap fieldValue else .null
    else .null
  else .null

/-- `GraphqlTypeV2.is_context_unique_field` (bundle.py lines 103-121): context
unique when `isContextUnique` or `isUnique` is truthy. -/
def isContextUniqueFieldV2 (graphqlField : JSON) : Bool :=
  pyTruthy (jGet graphqlField "isContextUnique") || pyTruthy (jGet graphqlField "isUnique")

/-- `GraphqlTypeV2.context_unique_field_names` (bundle.py lines 123-128); the
Python set is represented by the (duplicate-free) list of matching field
names.  Non-string field names would crash Python's later `sorted()` and are
dropped here. -/
def GraphqlTypeV2.contextUniqueFieldNames (t : GraphqlTypeV2) : List String :=
  t.fields.filterMap fun (k, f) =>
    match k with
    | .s nm => if isContextUniqueFieldV2 f then some nm else none
    | _ => none

/-- `GraphqlLookup._build_graphql_type` (bundle.py lines 142-155).  Called
only on confs whose `name` is truthy; a malformed `fields` entry raises as in
Python. -/
def buildGraphqlType (conf : JSON) : Except PyErr GraphqlTypeV2 := do
  let fieldsRaw := jGet conf "fields"
  let fieldsList ← if pyTruthy fieldsRaw then
      match fieldsRaw with
      | .arr l => pure l
      | _ => throw (PyErr.typeError "fields is not iterable as a list of dicts")
    else pure []
  let fields ← fieldsList.foldlM
    (fun acc f =>
      match f with
      | .obj fd =>
        let nm := dGet fd "name"
        if pyTruthy nm then pure (vInsert acc nm f) else pure acc
      | _ => throw (PyErr.attributeError "field entry has no attribute get"))
    ([] : List (JSON × JSON))
  pure {
    name := jGet conf "name"
    fields := fields
    datafile := jGet conf "datafile"
    isInterface := jGetD conf "isInterface" (.b false)
    interfaceResolve := jGet conf "interfaceResolve"
  }

/-- Name-indexed and schema-indexed registry, `GraphqlLookup` in bundle.py
(lines 131-181). -/
structure GraphqlLookup where
  graphqlTypes : List (JSON × GraphqlTypeV2)
  typeNameBySchema : List (JSON × JSON)
deriving Repr

/-- First half of `GraphqlLookup.__init__` (bundle.py lines 133-137). -/
def buildGraphqlTypes (confs : List JSON) :
    Except PyErr (List (JSON × GraphqlTypeV2)) :=
  confs.foldlM
    (fun acc conf =>
      match conf with
      | .obj _ => do
        let nm := jGet conf "name"
        if pyTruthy nm then
          let t ← buildGraphqlType conf
          pure (vInsert acc nm t)
        else pure acc
      | _ => throw (PyErr.attributeError "conf has no attribute get"))
    ([] : List (JSON × GraphqlTypeV2))

/-- `GraphqlLookup._build_type_name_by_schema` (bundle.py lines 157-173). -/
def buildTypeNameBySchema (graphqlTypes : List (JSON × GraphqlTypeV2)) :
    Except PyErr (List (JSON × JSON)) := do
  let byDatafile := graphqlTypes.foldl
    (fun acc (typeName, t) =>
      if pyTruthy t.datafile then vInsert acc t.datafile typeName else acc)
    ([] : List (JSON × JSON))
  match vGet graphqlTypes (.s "Query") with
  | some query =>
    query.fields.foldlM
      (fun acc (_, f) =>
        let ds := jGet f "datafileSchema"
        if pyTruthy ds then
          match f with
          | .obj fd =>
            if dMem fd "type" then pure (vInsert acc ds (dGet fd "type"))
            else throw (PyErr.keyError (.s "type"))
          | _ => throw (PyErr.typeError "field is not a dict")
        else pure acc)
      byDatafile
  | none => pure byDatafile

/-- `GraphqlLookup.__init__` (bundle.py lines 132-141). -/
def buildGraphqlLookup (confs : List JSON) : Except PyErr GraphqlLookup := do
  let types ← buildGraphqlTypes confs
  let bySchema ← buildTypeNameBySchema types
  pure { graphqlTypes := types, typeNameBySchema := bySchema }

/-- `GraphqlLookup.get_by_type_name` (bundle.py lines 175-176). -/
def GraphqlLookup.getByTypeName (gl : GraphqlLookup) (name : JSON) :
    Option GraphqlTypeV2 :=
  vGet gl.graphqlTypes name

/-- `GraphqlLookup.get_by_schema` (bundle.py lines 178-181). -/
def GraphqlLookup.getBySchema (gl : GraphqlLookup) (schema : JSON) :
    Option GraphqlTypeV2 :=
  match vGet gl.typeNameBySchema schema with
  | some nm => if pyTruthy nm then gl.getByTypeName nm else none
  | none => none

/-- The in-memory bundle, `Bundle` in bundle.py (lines 184-258); the two git
metadata strings play no role in any claim and are omitted. -/
structure Bundle where
  graphql : JSON
  data : Dict
  schemas : Dict
  resources : Dict
deriving Repr

/-- `Bundle.graphql_lookup` (bundle.py lines 197-202). -/
def Bundle.graphqlLookup (b : Bundle) : Except PyErr GraphqlLookup :=
  match b.graphql with
  | .obj d =>
    match jGetD (.obj d) "confs" (.arr []) with
    | .arr confs => buildGraphqlLookup confs
    | _ => throw (PyErr.typeError "confs is not iterable as a list of dicts")
  | .arr confs => buildGraphqlLookup confs
  | _ => throw (PyErr.typeError "graphql is not iterable")

/-- In-memory v1 record type, `GraphqlType` in bundle.py (lines 23-47):
`fields_by_name` is built in its `__post_init__` with no truthiness guard on
the field name (unlike the v2 builder). -/
structure GraphqlTypeV1 where
  name : JSON
  spec : JSON
  fieldsByName : List (JSON × JSON)
deriving Repr

/-- `GraphqlType.__post_init__` (bundle.py lines 29-30):
`{f.get("name"): f for f in self.spec.get("fields")}`, raising when `fields`
is absent (iterating None) or an entry is not a dict. -/
def buildGraphqlTypeV1 (name : JSON) (spec : JSON) : Except PyErr GraphqlTypeV1 := do
  let fieldsByName ←
    match jGet spec "fields" with
    | .arr l =>
      l.foldlM
        (fun acc f =>
          match f with
          | .obj fd => pure (vInsert acc (dGet fd "name") f)
          | _ => throw (PyErr.attributeError "field entry has no attribute get"))
        ([] : List (JSON × JSON))
    | .null => throw (PyErr.typeError "NoneType object is not iterable")
    | _ => throw (PyErr.attributeError "fields is not a list of dicts")
  pure { name := name, spec := spec, fieldsByName := fieldsByName }

/-- One step of the `__post_init__` dict comprehensions: index `t["name"]` and
construct the v1 type. -/
def postInitConfStep (acc : List (JSON × GraphqlTypeV1)) (t : JSON) :
    Except PyErr (List (JSON × GraphqlTypeV1)) :=
  match t with
  | .obj td => do
    if dMem td "name" then
      let gt ← buildGraphqlTypeV1 (dGet td "name") t
      pure (vInsert acc (dGet td "name") gt)
    else throw (PyErr.keyError (.s "name"))
  | _ => throw (PyErr.typeError "conf entry is not subscriptable by string")

/-- The dict comprehension over confs building `_graphql_type_by_name`
(bundle.py lines 205-213). -/
def postInitConfFold (confs : List JSON) : Except PyErr (List (JSON × GraphqlTypeV1)) :=
  confs.foldlM postInitConfStep ([] : List (JSON × GraphqlTypeV1))

/-- One step of the `_schema_to_graphql_type` comprehension (bundle.py lines
220-225). -/
def postInitDatafileStep (byName : List (JSON × GraphqlTypeV1))
    (acc : List (JSON × GraphqlTypeV1)) (f : JSON) :
    Except PyErr (List (JSON × GraphqlTypeV1)) :=
  match f with
  | .obj fd =>
    if pyTruthy (dGet fd "datafile") then
      match vGet byName (dGet fd "name") with
      | some gt => pure (vInsert acc (dGet fd "datafile") gt)
      | none => throw (PyErr.keyError (dGet fd "name"))
    else pure acc
  | _ => throw (PyErr.attributeError "conf entry has no attribute get")

/-- The `_schema_to_graphql_type` comprehension (bundle.py lines 220-225). -/
def postInitDatafileFold (byName : List (JSON × GraphqlTypeV1)) (confs : List JSON) :
    Except PyErr (List (JSON × GraphqlTypeV1)) :=
  confs.foldlM (postInitDatafileStep byName) ([] : List (JSON × GraphqlTypeV1))

/-- One step of the Query `datafileSchema` update comprehension (bundle.py
lines 227-231). -/
def postInitQueryStep (byName : List (JSON × GraphqlTypeV1))
    (acc : List (JSON × GraphqlTypeV1)) (f : JSON) :
    Except PyErr (List (JSON × GraphqlTypeV1)) :=
  match f with
  | .obj fd =>
    if pyTruthy (dGet fd "datafileSchema") then
      if dMem fd "type" then
        match vGet byName (dGet fd "type") with
        | some gt => pure (vInsert acc (dGet fd "datafileSchema") gt)
        | none => throw (PyErr.keyError (dGet fd "type"))
      else throw (PyErr.keyError (.s "type"))
    else pure acc
  | _ => throw (PyErr.attributeError "query field has no attribute get")

/-- `Bundle.__post_init__` (bundle.py lines 204-236), returning the
`_schema_to_graphql_type` index it builds, or the exception Python raises.
Notably, line 223 calls `self.graphql.get("confs", [])` unconditionally,
which raises `AttributeError` whenever `graphql` is a list. -/
def bundlePostInit (graphql : JSON) : Except PyErr (List (JSON × GraphqlTypeV1)) := do
  let byName ←
    match graphql with
    | .obj d =>
      if !dMem d "confs" then throw (PyErr.keyError (.s "confs"))
      else if pyTruthy (dGet d "confs") then
        match dGet d "confs" with
        | .arr confs => postInitConfFold confs
        | _ => throw (PyErr.typeError "confs entry is not subscriptable by string")
      else throw (PyErr.invalidBundleError
        "graphql field within bundle must be either list or dict with keys $schema and confs")
    | .arr confs => postInitConfFold confs
    | _ => throw (PyErr.invalidBundleError
        "graphql field within bundle must be either list or dict with keys $schema and confs")
  let confsForDatafile ←
    match graphql with
    | .obj d =>
      match jGetD (.obj d) "confs" (.arr []) with
      | .arr confs => pure confs
      | _ => throw (PyErr.typeError "confs is not iterable")
    | _ => throw (PyErr.attributeError "list object has no attribute get")
  let schemaToType ← postInitDatafileFold byName confsForDatafile
  let query ←
    match vGet byName (.s "Query") with
    | some q => pure q
    | none => throw (PyErr.keyError (.s "Query"))
  let queryFields ←
    match query.spec with
    | .obj qd =>
      if dMem qd "fields" then
        match dGet qd "fields" with
        | .arr fs => pure fs
        | _ => throw (PyErr.typeError "fields is not iterable")
      else throw (PyErr.keyError (.s "fields"))
    | _ => throw (PyErr.typeError "spec is not subscriptable")
  queryFields.foldlM (postInitQueryStep byName) schemaToType

/-- JSONPath steps, `JSONPathField` / `JSONPathIndex` in
src/validator/jsonpath.py (lines 17-36). -/
inductive JSONPath where
  | field (f : String)
  | index (n : Nat)
deriving Repr, DecidableEq

/-- `JSONPath.to_expression` (jsonpath.py lines 21-22 and 32-33). -/
def JSONPath.toExpression : JSONPath → String
  | .field f => f
  | .index n => "[" ++ toString n ++ "]"

/-- `build_jsonpath` (jsonpath.py lines 39-48). -/
def build_jsonpath (jsonpaths : List JSONPath) : String :=
  String.intercalate "." (jsonpaths.map JSONPath.toExpression)

/-- Ghost identity of a schema fragment: the schema document it lives in and
the access path to it inside that document.  Python mutates schema fragments
through shared object references; the functional embedding records where each
captured fragment sits so the postprocessing patches can be applied as
functional updates.  These components influence no computed value of the
traversal. -/
abbrev SLoc := String × List JSONPath

/-- The reserved resource-reference marker (bundle.py line 16). -/
def RESOURCE_REF : String := "/common-1.json#/definitions/resourceref"

/-- Traversal node, `Node` in src/validator/traverse.py (lines 9-47).  Field
order follows the dataclass; `bundle` is passed separately to every consumer
instead of being stored, and the two `SLoc` components are ghost data (see
`SLoc`). -/
inductive Node where
  | mk
    (data : JSON)
    (fileSchemaPath : JSON)
    (graphqlFieldName : JSON)
    (graphqlTypeName : JSON)
    (jsonpaths : List JSONPath)
    (path : String)
    (schema : JSON)
    (schemaOneOfRoot : JSON)
    (schemaPath : JSON)
    (schemaLoc : Option SLoc)
    (oneOfRootLoc : Option SLoc)
    (parent : Option Node)

def Node.data : Node → JSON
  | .mk d _ _ _ _ _ _ _ _ _ _ _ => d

def Node.fileSchemaPath : Node → JSON
  | .mk _ x _ _ _ _ _ _ _ _ _ _ => x

def Node.graphqlFieldName : Node → JSON
  | .mk _ _ x _ _ _ _ _ _ _ _ _ => x

def Node.graphqlTypeName : Node → JSON
  | .mk _ _ _ x _ _ _ _ _ _ _ _ => x

def Node.jsonpaths : Node → List JSONPath
  | .mk _ _ _ _ x _ _ _ _ _ _ _ => x

def Node.path : Node → String
  | .mk _ _ _ _ _ x _ _ _ _ _ _ => x

def Node.schema : Node → JSON
  | .mk _ _ _ _ _ _ x _ _ _ _ _ => x

def Node.schemaOneOfRoot : Node → JSON
  | .mk _ _ _ _ _ _ _ x _ _ _ _ => x

def Node.schemaPath : Node → JSON
  | .mk _ _ _ _ _ _ _ _ x _ _ _ => x

def Node.schemaLoc : Node → Option SLoc
  | .mk _ _ _ _ _ _ _ _ _ x _ _ => x

def Node.oneOfRootLoc : Node → Option SLoc
  | .mk _ _ _ _ _ _ _ _ _ _ x _ => x

def Node.parent : Node → Option Node
  | .mk _ _ _ _ _ _ _ _ _ _ _ x => x

/-- `Node.graphql_type` (traverse.py lines 23-27). -/
def Node.graphqlType (gl : GraphqlLookup) (n : Node) : Option GraphqlTypeV2 :=
  if pyTruthy n.graphqlTypeName then gl.getByTypeName n.graphqlTypeName else none

/-- `Node.graphql_field` (traverse.py lines 29-35). -/
def Node.graphqlField (gl : GraphqlLookup) (n : Node) : JSON :=
  if isNull n.graphqlFieldName then .null
  else
    match n.graphqlType gl with
    | some t => t.getField n.graphqlFieldName
    | none => .null

/-- `Node.is_resource_ref` (traverse.py lines 37-42). -/
def Node.isResourceRef (n : Node) : Bool :=
  match n.schema with
  | .obj d => pyEq (dGet d "$ref") (.s RESOURCE_REF)
  | _ => false

/-- `Node.resolve_ref` (traverse.py lines 44-47). -/
def Node.resolveRef (b : Bundle) (n : Node) : JSON :=
  match n.data with
  | .s v => if v ≠ "" then dGet b.data v else .null
  | _ => .null

/-- Resolved schema information, `SchemaInfo` in traverse.py (lines 109-112),
plus the ghost identities of the two fragments (see `SLoc`). -/
structure SchemaInfo where
  schemaPath : JSON
  schema : JSON
  schemaOneOfRoot : JSON
  schemaLoc : Option SLoc
  oneOfRootLoc : Option SLoc
deriving Repr

/-- Python `bundle.schemas.get(key)` with an arbitrary key value. -/
def schemasGet (schemas : Dict) (k : JSON) : JSON :=
  match k with
  | .s key => dGet schemas key
  | _ => .null

/-- `_resolve_ref_schema` (traverse.py lines 361-377): a fragment that is a
`$ref` to another in-bundle schema document (and not a crossref marker) is
replaced by that document, once. -/
def resolveRefSchema (b : Bundle) (si : SchemaInfo) : SchemaInfo :=
  match si.schema with
  | .obj d =>
    if !(d.isEmpty) && !dMem d "$schemaRef" && pyTruthy (dGet d "$ref")
        && pyTruthy (schemasGet b.schemas (dGet d "$ref")) then
      { schemaPath := dGet d "$ref"
        schema := schemasGet b.schemas (dGet d "$ref")
        schemaOneOfRoot := .null
        schemaLoc :=
          match dGet d "$ref" with
          | .s r => some (r, [])
          | _ => none
        oneOfRootLoc := none }
    else si
  | _ => si

/-- `_is_inline_and_referenced` (traverse.py lines 423-444). -/
def isInlineAndReferenced (schemas : List JSON) : Bool :=
  (schemas.countP fun s => !jHasKey "$schemaRef" s) = 1 &&
    (schemas.countP fun s => jHasKey "$schemaRef" s) = 1

/-- `_find_one_of_schema_by_crossref_data` (traverse.py lines 414-420),
additionally reporting which branch index was picked (ghost, for `SLoc`).
The call site guarantees via `_is_inline_and_referenced` that a matching
branch exists; an absent match maps Python's impossible `StopIteration` to
null. -/
def findOneOfSchemaByCrossrefData (schemas : List JSON) (data : JSON) :
    JSON × Option Nat :=
  let pred : JSON → Bool :=
    match data with
    | .obj d => if dMem d "$ref" then (fun s => jHasKey "$schemaRef" s) else (fun s => !jHasKey "$schemaRef" s)
    | _ => fun s => !jHasKey "$schemaRef" s
  match schemas.findIdx? pred with
  | some i => ((schemas.get? i).getD .null, some i)
  | none => (.null, none)

/-- Python `properties.get(field, {})` with a value key. -/
def dGetDByVal (d : Dict) (k : JSON) (dflt : JSON) : JSON :=
  match k with
  | .s key => if dMem d key then dGet d key else dflt
  | _ => dflt

/-- Loop body of `_find_one_of_schema_by_enum` (traverse.py lines 380-411):
walk the `oneOf` branches in order, resolve each one-hop reference, and pick
the first branch whose property for the discriminator field enumerates the
discriminator value; remember the union root. -/
def findOneOfSchemaByEnumAux (b : Bundle) (rootSi : SchemaInfo) (field fieldValue : JSON) :
    Nat → List JSON → SchemaInfo
  | _, [] =>
    { schemaPath := rootSi.schemaPath, schema := .null, schemaOneOfRoot := .null
      schemaLoc := none, oneOfRootLoc := none }
  | i, branch :: rest =>
    let si := resolveRefSchema b
      { schemaPath := rootSi.schemaPath, schema := branch, schemaOneOfRoot := .null
        schemaLoc := rootSi.schemaLoc.map (fun (p, steps) => (p, steps ++ [.field "oneOf", .index i]))
        oneOfRootLoc := none }
    let hit :=
      match si.schema with
      | .obj sd =>
        let props := if dMem sd "properties" then dGet sd "properties" else .obj []
        let fieldSchema :=
          match props with
          | .obj pd => dGetDByVal pd field (.obj [])
          | _ => .obj []
        let enums := jGetD fieldSchema "enum" (.arr [])
        match enums with
        | .arr l => l.any fun e => pyEq fieldValue e
        | _ => false
      | _ => false
    if hit then
      { schemaPath := si.schemaPath, schema := si.schema, schemaOneOfRoot := rootSi.schema
        schemaLoc := si.schemaLoc, oneOfRootLoc := rootSi.schemaLoc }
    else findOneOfSchemaByEnumAux b rootSi field fieldValue (i + 1) rest

/-- `_find_one_of_schema_by_enum` (traverse.py lines 380-411). -/
def findOneOfSchemaByEnum (b : Bundle) (rootSi : SchemaInfo) (schemas : List JSON)
    (field fieldValue : JSON) : SchemaInfo :=
  findOneOfSchemaByEnumAux b rootSi field fieldValue 0 schemas

/-- `_resolve_schema` (traverse.py lines 297-358). -/
def resolveSchema (b : Bundle) (schemaPath schema : JSON) (schemaLoc : Option SLoc)
    (data : JSON) (graphqlType : Option GraphqlTypeV2) : SchemaInfo :=
  let si := resolveRefSchema b
    { schemaPath := schemaPath, schema := schema, schemaOneOfRoot := .null
      schemaLoc := schemaLoc, oneOfRootLoc := none }
  if pyTruthy si.schemaPath && pyTruthy si.schema then
    match si.schema with
    | .obj d =>
      if !dMem d "$schemaRef" && pyTruthy (dGet d "oneOf") then
        match dGet d "oneOf" with
        | .arr branches =>
          if isInlineAndReferenced branches then
            let (newSchema, idx) := findOneOfSchemaByCrossrefData branches data
            resolveRefSchema b
              { schemaPath := si.schemaPath, schema := newSchema
                schemaOneOfRoot := si.schemaOneOfRoot
                schemaLoc :=
                  match idx with
                  | some i => si.schemaLoc.map (fun (p, steps) => (p, steps ++ [.field "oneOf", .index i]))
                  | none => none
                oneOfRootLoc := si.oneOfRootLoc }
          else
            match graphqlType with
            | some gt =>
              let field := gt.interfaceResolveFieldName
              let fieldValue := gt.resolveInterfaceFieldValue data
              if pyTruthy field && pyTruthy fieldValue then
                findOneOfSchemaByEnum b si branches field fieldValue
              else si
            | none => si
        | _ => si
      else si
    | _ => si
  else si

/-- `_resolve_graphql_interface_type` (traverse.py lines 272-294): a concrete
subtype for an interface-typed position, found through the discriminator field
value, or none. -/
def resolveGraphqlInterfaceType (gl : GraphqlLookup) (graphqlType : Option GraphqlTypeV2)
    (data : JSON) : Option GraphqlTypeV2 :=
  match graphqlType with
  | none => none
  | some t =>
    if !pyTruthy t.isInterface then none
    else
      let nm := t.resolveInterfaceTypeName data
      if pyTruthy nm then gl.getByTypeName nm else none

/-- `_next_dict_graphql` (traverse.py lines 142-176): the record type and
field governing a child key. -/
def nextDictGraphql (gl : GraphqlLookup) (n : Node) (fieldName : String) :
    Option GraphqlTypeV2 × JSON :=
  match n.graphqlType gl with
  | none => (none, .null)
  | some graphqlType =>
    let graphqlField := n.graphqlField gl
    if fieldName = "$ref" then (some graphqlType, graphqlField)
    else if isNull graphqlField then (some graphqlType, graphqlType.getField (.s fieldName))
    else
      let newTypeName := jGet graphqlField "type"
      if pyTruthy newTypeName then
        match gl.getByTypeName newTypeName with
        | some newType => (some newType, newType.getField (.s fieldName))
        | none => (none, .null)
      else (none, .null)

/-- `_next_dict_schema` (traverse.py lines 179-199): the schema fragment
governing a child key, stopping at crossref markers, with its ghost identity. -/
def nextDictSchema (n : Node) (key : String) : JSON × Option SLoc :=
  if pyTruthy n.schema then
    match n.schema with
    | .obj d =>
      if dMem d "$schemaRef" then (n.schema, n.schemaLoc)
      else
        match dGet d "properties" with
        | .obj pd =>
          if dMem pd key then
            (dGet pd key, n.schemaLoc.map fun (p, steps) => (p, steps ++ [.field "properties", .field key]))
          else (.null, none)
        | _ => (.null, none)
    | _ => (.null, none)
  else (.null, none)

/-- `_next_node` (traverse.py lines 202-269): build the child node, resolving
its schema and, when the field's declared type is an interface, its concrete
record type.  When interface resolution fails the second branch keeps the
type/field produced by ordinary field resolution. -/
def nextNode (b : Bundle) (gl : GraphqlLookup) (n : Node) (schema : JSON)
    (schemaLoc : Option SLoc) (data : JSON) (jsonpaths : List JSONPath)
    (graphqlType : Option GraphqlTypeV2) (graphqlField : JSON) : Node :=
  let graphqlFieldType :=
    if pyTruthy graphqlField then gl.getByTypeName (jGet graphqlField "type") else none
  let si := resolveSchema b n.schemaPath schema schemaLoc data graphqlFieldType
  match resolveGraphqlInterfaceType gl graphqlFieldType data with
  | some resolvedType =>
    .mk data n.fileSchemaPath .null resolvedType.name jsonpaths n.path
      si.schema si.schemaOneOfRoot si.schemaPath si.schemaLoc si.oneOfRootLoc (some n)
  | none =>
    let graphqlTypeName :=
      match graphqlType with
      | some t => t.name
      | none => .null
    let graphqlFieldName := if pyTruthy graphqlField then jGet graphqlField "name" else .null
    .mk data n.fileSchemaPath graphqlFieldName graphqlTypeName jsonpaths n.path
      si.schema si.schemaOneOfRoot si.schemaPath si.schemaLoc si.oneOfRootLoc (some n)

/-- `_next_dict_node` (traverse.py lines 115-127): none exactly for the
`$schema` marker key. -/
def nextDictNode (b : Bundle) (gl : GraphqlLookup) (n : Node) (key : String)
    (value : JSON) : Option Node :=
  if key = "$schema" then none
  else
    let (graphqlType, graphqlField) := nextDictGraphql gl n key
    let (schema, schemaLoc) := nextDictSchema n key
    some (nextNode b gl n schema schemaLoc value (n.jsonpaths ++ [.field key]) graphqlType graphqlField)

/-- `_next_list_node` (traverse.py lines 130-139). -/
def nextListNode (b : Bundle) (gl : GraphqlLookup) (n : Node) (index : Nat)
    (value : JSON) : Node :=
  let (schema, schemaLoc) :=
    if pyTruthy n.schema then
      match n.schema with
      | .obj d =>
        if dMem d "items" then
          (dGet d "items", n.schemaLoc.map fun (p, steps) => (p, steps ++ [.field "items"]))
        else (.null, none)
      | _ => (.null, none)
    else (.null, none)
  nextNode b gl n schema schemaLoc value (n.jsonpaths ++ [.index index])
    (n.graphqlType gl) (n.graphqlField gl)

mutual

/-- `_traverse_node` (traverse.py lines 90-101), with the invariant
`d = n.data` maintained at every call site: descend through dicts and lists,
yield exactly the leaf nodes. -/
def traverseNode (b : Bundle) (gl : GraphqlLookup) (n : Node) (d : JSON) : List Node :=
  match d with
  | .obj entries => traverseEntries b gl n entries
  | .arr items => traverseItems b gl n 0 items
  | _ => [n]

/-- Dict part of `_traverse_node`: iterate entries in insertion order. -/
def traverseEntries (b : Bundle) (gl : GraphqlLookup) (n : Node) :
    List (String × JSON) → List Node
  | [] => []
  | (k, v) :: rest =>
    (match nextDictNode b gl n k v with
     | some n' => traverseNode b gl n' v
     | none => []) ++ traverseEntries b gl n rest

/-- List part of `_traverse_node`: iterate items with their indices. -/
def traverseItems (b : Bundle) (gl : GraphqlLookup) (n : Node) (idx : Nat) :
    List JSON → List Node
  | [] => []
  | v :: rest =>
    traverseNode b gl (nextListNode b gl n idx v) v ++ traverseItems b gl n (idx + 1) rest

end

/-- Root node for one datafile, body of the loop in `traverse_data`
(traverse.py lines 61-86). -/
def rootNode (b : Bundle) (gl : GraphqlLookup) (path : String) (datafile : JSON) : Node :=
  let datafileSchema := jGet datafile "$schema"
  let schema :=
    if pyTruthy datafileSchema then
      match datafileSchema with
      | .s p => if dMem b.schemas p then dGet b.schemas p else .obj []
      | _ => .obj []
    else .null
  let schemaLoc :=
    if pyTruthy datafileSchema then
      match datafileSchema with
      | .s p => if dMem b.schemas p then some ((p, []) : SLoc) else none
      | _ => none
    else none
  let graphqlTypeName :=
    if pyTruthy datafileSchema then
      match gl.getBySchema datafileSchema with
      | some t => t.name
      | none => .null
    else .null
  .mk datafile datafileSchema .null graphqlTypeName [] path schema .null datafileSchema
    schemaLoc none none

/-- `traverse_data` (traverse.py lines 50-87): the full traversal stream over
all datafiles, in datafile order. -/
def traverseData (b : Bundle) (gl : GraphqlLookup) : List Node :=
  b.data.flatMap fun (path, datafile) =>
    traverseNode b gl (rootNode b gl path datafile) datafile

/-- A scalar leaf value: not a dict, not a list. -/
def isLeaf : JSON → Bool
  | .obj _ => false
  | .arr _ => false
  | _ => true

theorem nextNode_data (b : Bundle) (gl : GraphqlLookup) (n : Node) (schema : JSON)
    (schemaLoc : Option SLoc) (data : JSON) (jsonpaths : List JSONPath)
    (graphqlType : Option GraphqlTypeV2) (graphqlField : JSON) :
    (nextNode b gl n schema schemaLoc data jsonpaths graphqlType graphqlField).data = data := by
  simp only [nextNode]
  split <;> rfl

theorem nextDictNode_data (b : Bundle) (gl : GraphqlLookup) (n : Node) (key : String)
    (value : JSON) (n' : Node) (h : nextDictNode b gl n key value = some n') :
    n'.data = value := by
  unfold nextDictNode at h
  split at h
  · exact absurd h (by simp)
  · simp only [Option.some.injEq] at h
    subst h
    exact nextNode_data ..

theorem nextListNode_data (b : Bundle) (gl : GraphqlLookup) (n : Node) (index : Nat)
    (value : JSON) : (nextListNode b gl n index value).data = value := by
  unfold nextListNode
  exact nextNode_data ..

theorem traverse_leaf_aux (N : Nat) :
    (∀ (b : Bundle) (gl : GraphqlLookup) (n : Node) (d : JSON), sizeOf d ≤ N →
      n.data = d → ∀ m ∈ traverseNode b gl n d, isLeaf m.data = true) ∧
    (∀ (b : Bundle) (gl : GraphqlLookup) (n : Node) (entries : List (String × JSON)),
      sizeOf entries ≤ N → ∀ m ∈ traverseEntries b gl n entries, isLeaf m.data = true) ∧
    (∀ (b : Bundle) (gl : GraphqlLookup) (n : Node) (idx : Nat) (items : List JSON),
      sizeOf items ≤ N → ∀ m ∈ traverseItems b gl n idx items, isLeaf m.data = true) := by
  induction N using Nat.strong_induction_on with
  | _ N ih =>
    refine ⟨?_, ?_, ?_⟩
    · intro b gl n d hsz hdata m hm
      match d with
      | .obj entries =>
        rw [traverseNode] at hm
        have hlt : sizeOf entries < N := by
          have : sizeOf (JSON.obj entries) ≤ N := hsz
          simp at this
          omega
        exact (ih (sizeOf entries) hlt).2.1 b gl n entries le_rfl m hm
      | .arr items =>
        rw [traverseNode] at hm
        have hlt : sizeOf items < N := by
          have : sizeOf (JSON.arr items) ≤ N := hsz
          simp at this
          omega
        exact (ih (sizeOf items) hlt).2.2 b gl n 0 items le_rfl m hm
      | .null => rw [traverseNode.eq_def] at hm; simp at hm; subst hm; rw [hdata]; rfl
      | .b v => rw [traverseNode.eq_def] at hm; simp at hm; subst hm; rw [hdata]; rfl
      | .i v => rw [traverseNode.eq_def] at hm; simp at hm; subst hm; rw [hdata]; rfl
      | .s v => rw [traverseNode.eq_def] at hm; simp at hm; subst hm; rw [hdata]; rfl
    · intro b gl n entries hsz m hm
      match entries with
      | [] => rw [traverseEntries] at hm; simp at hm
      | (k, v) :: rest =>
        rw [traverseEntries] at hm
        rw [List.mem_append] at hm
        rcases hm with hm | hm
        · rcases hnext : nextDictNode b gl n k v with _ | n'
          · rw [hnext] at hm; simp at hm
          · rw [hnext] at hm
            have hv : sizeOf v ≤ N := by
              have : sizeOf ((k, v) :: rest) ≤ N := hsz
              simp at this
              omega
            rcases Nat.lt_or_ge (sizeOf v) N with hlt | hge
            · exact (ih (sizeOf v) hlt).1 b gl n' v le_rfl
                (nextDictNode_data b gl n k v n' hnext) m hm
            · have hEq : sizeOf v = N := le_antisymm hv hge
              -- impossible: sizeOf rest ≥ 1 forces sizeOf v < N is not guaranteed;
              -- fall back to using the bound directly
              have hlt : sizeOf v < N := by
                have : sizeOf ((k, v) :: rest) ≤ N := hsz
                simp at this
                omega
              exact (ih (sizeOf v) hlt).1 b gl n' v le_rfl
                (nextDictNode_data b gl n k v n' hnext) m hm
        · have hlt : sizeOf rest < N := by
            have : sizeOf ((k, v) :: rest) ≤ N := hsz
            simp at this
            omega
          exact (ih (sizeOf rest) hlt).2.1 b gl n rest le_rfl m hm
    · intro b gl n idx items hsz m hm
      match items with
      | [] => rw [traverseItems] at hm; simp at hm
      | v :: rest =>
        rw [traverseItems] at hm
        rw [List.mem_append] at hm
        rcases hm with hm | hm
        · have hlt : sizeOf v < N := by
            have : sizeOf (v :: rest) ≤ N := hsz
            simp at this
            omega
          exact (ih (sizeOf v) hlt).1 b gl (nextListNode b gl n idx v) v le_rfl
            (nextListNode_data b gl n idx v) m hm
        · have hlt : sizeOf rest < N := by
            have : sizeOf (v :: rest) ≤ N := hsz
            simp at this
            omega
          exact (ih (sizeOf rest) hlt).2.2 b gl n (idx + 1) rest le_rfl m hm

theorem traverseNode_leaf (b : Bundle) (gl : GraphqlLookup) (n : Node) (d : JSON)
    (hdata : n.data = d) : ∀ m ∈ traverseNode b gl n d, isLeaf m.data = true :=
  (traverse_leaf_aux (sizeOf d)).1 b gl n d le_rfl hdata

/-- C9: the traversal engine yields a node if and only if its data is a
scalar leaf (string, number, boolean or null): every node emitted by
`traverse_data` has non-dict, non-list data; composite values are consumed
internally to produce child nodes and never themselves emitted. -/
theorem C9_traversal_yields_only_scalar_leaves (b : Bundle) (gl : GraphqlLookup) :
    ∀ m ∈ traverseData b gl, isLeaf m.data = true := by
  intro m hm
  rw [traverseData, List.mem_flatMap] at hm
  obtain ⟨⟨p, df⟩, _, hmem⟩ := hm
  exact traverseNode_leaf b gl (rootNode b gl p df) df rfl m hmem

def glEmpty : GraphqlLookup := { graphqlTypes := [], typeNameBySchema := [] }

def bW9 : Bundle :=
  { graphql := .arr [], data := [("/d.yml", .i 5)], schemas := [], resources := [] }

theorem C9_witness :
    rootNode bW9 glEmpty "/d.yml" (.i 5) ∈ traverseData bW9 glEmpty ∧
      isLeaf (rootNode bW9 glEmpty "/d.yml" (.i 5)).data = true := by
  have hmem : rootNode bW9 glEmpty "/d.yml" (.i 5) ∈ traverseData bW9 glEmpty := by
    rw [traverseData]
    simp only [bW9, List.flatMap_cons, List.flatMap_nil, List.append_nil]
    rw [traverseNode.eq_def]
    simp
  exact ⟨hmem, C9_traversal_yields_only_scalar_leaves bW9 glEmpty _ hmem⟩

def confT : JSON := .obj [("name", .s "T"), ("datafile", .s "/t.yml"),
  ("fields", .arr [.obj [("name", .s "f"), ("type", .s "I")]])]

def confI : JSON := .obj [("name", .s "I"), ("isInterface", .b true),
  ("interfaceResolve", .obj [("strategy", .s "fieldMap"), ("field", .s "provider"),
    ("fieldMap", .obj [("a", .s "SubA")])]),
  ("fields", .arr [.obj [("name", .s "provider"), ("type", .s "string")]])]

def confSubA : JSON := .obj [("name", .s "SubA"),
  ("fields", .arr [.obj [("name", .s "provider"), ("type", .s "string")],
    .obj [("name", .s "x"), ("type", .s "string")]])]

def dataC2 : JSON := .obj [("provider", .s "zzz")]

def docC2 : JSON := .obj [("$schema", .s "/t.yml"), ("f", dataC2)]

def bC2 : Bundle :=
  { graphql := .arr [confT, confI, confSubA]
    data := [("/d.yml", docC2)]
    schemas := [], resources := [] }

example : bC2.graphqlLookup.map (fun gl => gl.typeNameBySchema) = .ok [(.s "/t.yml", .s "T")] := rfl

/-- C2 (counterexample): in bundle `bC2` the root object's field `f` is
declared with the interface type `I`, and the child data's discriminator
value `"zzz"` has no entry in `I`'s value-to-type map, so interface
resolution fails — yet the produced node's record-type name is `"T"` (the
enclosing type kept by ordinary field resolution), not none as the claim
states. -/
theorem C2_counterexample :
    (bC2.graphqlLookup.map fun gl =>
      let root := rootNode bC2 gl "/d.yml" docC2
      ((gl.getByTypeName (.s "I")).map fun t => pyTruthy t.isInterface,
       jGet (nextDictGraphql gl root "f").2 "type",
       (resolveGraphqlInterfaceType gl (gl.getByTypeName (.s "I")) dataC2).isSome,
       (nextDictNode bC2 gl root "f" dataC2).map Node.graphqlTypeName)) =
      .ok (some true, .s "I", false, some (.s "T")) ∧
    JSON.s "T" ≠ JSON.null :=
  ⟨rfl, fun h => JSON.noConfusion h⟩

/-- C2 (amended): during traversal, when the child field's declared record
type is an interface and interface resolution against the child data fails,
no error is raised and the produced node keeps the record type and field name
obtained by ordinary field resolution (the concrete subtype is substituted,
with a cleared field name, only on successful resolution). -/
theorem C2_amended_failed_interface_resolution_keeps_field_resolution
    (b : Bundle) (gl : GraphqlLookup) (n : Node) (schema : JSON) (loc : Option SLoc)
    (data : JSON) (jps : List JSONPath) (gt : Option GraphqlTypeV2) (gf : JSON)
    (hfail : resolveGraphqlInterfaceType gl
      (if pyTruthy gf then gl.getByTypeName (jGet gf "type") else none) data = none) :
    (nextNode b gl n schema loc data jps gt gf).graphqlTypeName =
      (match gt with
       | some t => t.name
       | none => .null) ∧
    (nextNode b gl n schema loc data jps gt gf).graphqlFieldName =
      (if pyTruthy gf then jGet gf "name" else .null) := by
  constructor <;> · simp only [nextNode]; rw [hfail]; rfl

/-- The successfully built lookup of `bC2`. -/
def glC2 : GraphqlLookup := (bC2.graphqlLookup).toOption.getD glEmpty

/-- The raw catalog field dict declaring `f : I` on type `T`. -/
def fieldFC2 : JSON := .obj [("name", .s "f"), ("type", .s "I")]

/-- The root node of `bC2`'s single document. -/
def rootC2 : Node := rootNode bC2 glC2 "/d.yml" docC2

theorem C2_witness :
    bC2.graphqlLookup = .ok glC2 ∧
      (nextNode bC2 glC2 rootC2 .null none dataC2 [.field "f"]
        (glC2.getByTypeName (.s "T")) fieldFC2).graphqlTypeName = .s "T" := by
  refine ⟨rfl, ?_⟩
  have h := C2_amended_failed_interface_resolution_keeps_field_resolution bC2 glC2
    rootC2 .null none dataC2 [.field "f"] (glC2.getByTypeName (.s "T")) fieldFC2 rfl
  rw [h.1]
  rfl

theorem resolveRefSchema_root_null (b : Bundle) (si : SchemaInfo)
    (h : si.schemaOneOfRoot = .null) : (resolveRefSchema b si).schemaOneOfRoot = .null := by
  unfold resolveRefSchema
  split
  · split
    · rfl
    · exact h
  · exact h

theorem findOneOfSchemaByEnumAux_root (b : Bundle) (rootSi : SchemaInfo)
    (field fieldValue : JSON) (i : Nat) (l : List JSON) :
    (findOneOfSchemaByEnumAux b rootSi field fieldValue i l).schemaOneOfRoot = rootSi.schema ∨
    (findOneOfSchemaByEnumAux b rootSi field fieldValue i l).schemaOneOfRoot = .null := by
  induction l generalizing i with
  | nil => right; rfl
  | cons branch rest ih =>
    rw [findOneOfSchemaByEnumAux]
    split
    · left; rfl
    · exact ih (i + 1)

/-- The union root produced by `_resolve_schema` is either absent or a dict
with a truthy `oneOf` member (the union whose branch was just selected). -/
theorem resolveSchema_root (b : Bundle) (sp s : JSON) (loc : Option SLoc) (data : JSON)
    (gt : Option GraphqlTypeV2) :
    (resolveSchema b sp s loc data gt).schemaOneOfRoot = .null ∨
    pyTruthy (jGet (resolveSchema b sp s loc data gt).schemaOneOfRoot "oneOf") = true := by
  have hnull : (resolveRefSchema b
      { schemaPath := sp, schema := s, schemaOneOfRoot := .null
        schemaLoc := loc, oneOfRootLoc := none }).schemaOneOfRoot = .null :=
    resolveRefSchema_root_null b _ rfl
  rcases gt with _ | gtv
  · simp only [resolveSchema]
    split
    · split
      · rename_i d heq
        split
        · split
          · split
            · rcases findOneOfSchemaByCrossrefData _ data with ⟨newSchema, idx⟩
              left
              exact resolveRefSchema_root_null b _ hnull
            · left; exact hnull
          · left; exact hnull
        · left; exact hnull
      all_goals left; exact hnull
    · left; exact hnull
  · simp only [resolveSchema]
    split
    · split
      · rename_i d heq
        split
        · rename_i hcond
          split
          · rename_i branches honeof
            split
            · rcases findOneOfSchemaByCrossrefData branches data with ⟨newSchema, idx⟩
              left
              exact resolveRefSchema_root_null b _ hnull
            · split
              · rcases findOneOfSchemaByEnumAux_root b
                  (resolveRefSchema b { schemaPath := sp, schema := s, schemaOneOfRoot := .null, schemaLoc := loc, oneOfRootLoc := none })
                  gtv.interfaceResolveFieldName (gtv.resolveInterfaceFieldValue data) 0 branches with h | h
                · right
                  unfold findOneOfSchemaByEnum
                  rw [h, heq]
                  have h2 : pyTruthy (dGet d "oneOf") = true :=
                    (Bool.and_eq_true .. |>.mp hcond).2
                  rw [jGet, honeof]
                  rw [honeof] at h2
                  exact h2
                · left
                  unfold findOneOfSchemaByEnum
                  rw [h]
              · left; exact hnull
          · left; exact hnull
        · left; exact hnull
      all_goals left; exact hnull
    · left; exact hnull

theorem nextNode_root (b : Bundle) (gl : GraphqlLookup) (n : Node) (schema : JSON)
    (loc : Option SLoc) (data : JSON) (jps : List JSONPath)
    (gt : Option GraphqlTypeV2) (gf : JSON) :
    (nextNode b gl n schema loc data jps gt gf).schemaOneOfRoot =
      (resolveSchema b n.schemaPath schema loc data
        (if pyTruthy gf then gl.getByTypeName (jGet gf "type") else none)).schemaOneOfRoot := by
  simp only [nextNode]
  split <;> rfl

/-- Replace only the `schema_one_of_root` component of a node. -/
def setSchemaOneOfRoot (n : Node) (x : JSON) : Node :=
  match n with
  | .mk data fsp gfn gtn jps path schema _ sp sl orl parent =>
    .mk data fsp gfn gtn jps path schema x sp sl orl parent

/-- C3 (amended): a traversal step into an array element never inherits the
enclosing node's schema-union-root — the resulting root does not depend on the
parent's root at all — but, contrary to the claim, an index step can newly
set it: the resulting root is either absent or the `oneOf` union fragment
whose branch was selected during the element's schema resolution. -/
theorem C3_amended_index_step_one_of_root (b : Bundle) (gl : GraphqlLookup)
    (n : Node) (i : Nat) (v : JSON) :
    ((nextListNode b gl n i v).schemaOneOfRoot = .null ∨
      pyTruthy (jGet (nextListNode b gl n i v).schemaOneOfRoot "oneOf") = true) ∧
    ∀ x, (nextListNode b gl (setSchemaOneOfRoot n x) i v).schemaOneOfRoot =
      (nextListNode b gl n i v).schemaOneOfRoot := by
  constructor
  · simp only [nextListNode]
    rw [nextNode_root]
    exact resolveSchema_root ..
  · intro x
    cases n
    simp only [nextListNode, setSchemaOneOfRoot]
    rw [nextNode_root, nextNode_root]
    rfl

def confT3 : JSON := .obj [("name", .s "T"), ("datafile", .s "/t3.yml"),
  ("fields", .arr [.obj [("name", .s "items_f"), ("type", .s "I")]])]

def itemSchemaC3 : JSON := .obj [("oneOf", .arr [
  .obj [("properties", .obj [("provider", .obj [("enum", .arr [.s "a"])])])],
  .obj [("properties", .obj [("provider", .obj [("enum", .arr [.s "b"])])])]])]

def elemC3 : JSON := .obj [("provider", .s "a")]

def docC3 : JSON := .obj [("$schema", .s "/t3.yml"), ("items_f", .arr [elemC3])]

def bC3 : Bundle :=
  { graphql := .arr [confT3, confI, confSubA]
    data := [("/d3.yml", docC3)]
    schemas := [
      ("/t3.yml", .obj [("$schema", .s "/metaschema-1.json"),
        ("properties", .obj [("items_f", .obj [("items", .obj [("$ref", .s "/item-1.yml")])])])]),
      ("/item-1.yml", itemSchemaC3)]
    resources := [] }

def glC3 : GraphqlLookup := (bC3.graphqlLookup).toOption.getD glEmpty

def rootC3 : Node := rootNode bC3 glC3 "/d3.yml" docC3

/-- The internal node for the array value under key `items_f` of `bC3`'s
document. -/
def nodeArrC3 : Node :=
  (nextDictNode bC3 glC3 rootC3 "items_f" (.arr [elemC3])).getD rootC3

/-- C3 (counterexample): in bundle `bC3`, the traversal step descending from
the `items_f` array node into element 0 — an index step — sets the resulting
node's schema-union-root to the `oneOf` schema of `/item-1.yml`, which the
parent node did not carry: an index step can newly set the schema-union-root,
contrary to the claim that only keyed object steps select a union branch. -/
theorem C3_counterexample :
    bC3.graphqlLookup = .ok glC3 ∧
    nextDictNode bC3 glC3 rootC3 "items_f" (.arr [elemC3]) = some nodeArrC3 ∧
    nodeArrC3.schemaOneOfRoot = .null ∧
    (nextListNode bC3 glC3 nodeArrC3 0 elemC3).schemaOneOfRoot = itemSchemaC3 ∧
    itemSchemaC3 ≠ .null :=
  ⟨rfl, rfl, rfl, rfl, fun h => JSON.noConfusion h⟩

/-- Python `repr` of a string, simplified to quote selection (single quotes,
or double quotes when the text contains a single quote and no double quote);
escape sequences inside the text are not modelled — no claim depends on the
repr of a composite containing quote or control characters. -/
def pyReprStr (v : String) : String :=
  if v.contains '\'' && !v.contains '"' then "\"" ++ v ++ "\""
  else "'" ++ v ++ "'"

mutual

/-- Python `repr` of a JSON-like value. -/
def pyRepr : JSON → String
  | .null => "None"
  | .b true => "True"
  | .b false => "False"
  | .i n => toString n
  | .s v => pyReprStr v
  | .arr items => "[" ++ pyReprList items ++ "]"
  | .obj entries => "\x7b" ++ pyReprEntries entries ++ "\x7d"

/-- Comma-separated reprs of list items. -/
def pyReprList : List JSON → String
  | [] => ""
  | [x] => pyRepr x
  | x :: rest => pyRepr x ++ ", " ++ pyReprList rest

/-- Comma-separated `key: value` reprs of dict entries. -/
def pyReprEntries : List (String × JSON) → String
  | [] => ""
  | [(k, v)] => pyReprStr k ++ ": " ++ pyRepr v
  | (k, v) :: rest => pyReprStr k ++ ": " ++ pyRepr v ++ ", " ++ pyReprEntries rest

end

/-- Python `str` of a JSON-like value: the string itself for strings,
otherwise the repr (for None, booleans, ints, lists, dicts). -/
def pyStr (j : JSON) : String :=
  match j with
  | .s v => v
  | _ => pyRepr j

/-- `to_hashable` inside `_compute_identifier` (postprocess_v2.py lines
221-224): lists and dicts are not hashable and are replaced by their repr. -/
def toHashable (j : JSON) : JSON :=
  match j with
  | .arr _ => .s (pyRepr j)
  | .obj _ => .s (pyRepr j)
  | _ => j

/-- Lexicographic code-point comparison on character lists (Python's string
ordering). -/
def charsLt : List Char → List Char → Bool
  | [], [] => false
  | [], _ :: _ => true
  | _ :: _, [] => false
  | c :: cs, d :: ds =>
    if c.toNat < d.toNat then true
    else if c.toNat = d.toNat then charsLt cs ds
    else false

/-- Python `<` on strings: lexicographic by code point. -/
def strLtB (a b : String) : Bool := charsLt a.data b.data

/-- Insert into an ascending list of strings. -/
def insertSorted (x : String) : List String → List String
  | [] => [x]
  | y :: rest => if strLtB x y then x :: y :: rest else y :: insertSorted x rest

/-- Python `sorted` on a set of strings. -/
def sortStrs (l : List String) : List String :=
  l.foldr insertSorted []

/-- The sequence of strings `_compute_identifier` (postprocess_v2.py lines
220-232) feeds to the digest: `str(to_hashable(obj.get(p)))` for the sorted
field names, or nothing when every raw value is None.  The md5 digest itself
is an external library call; it is a function of the concatenation of these
strings (the source calls `update` per string), so every claim about
identifier equality reduces to this input. -/
def computeIdentifierInput (properties : List String) (obj : JSON) : Option (List String) :=
  if ((sortStrs properties).map fun item => toHashable (jGet obj item)).all
      (fun x => isNull x) then none
  else some (((sortStrs properties).map fun item => toHashable (jGet obj item)).map pyStr)

/-- `_compute_identifier` with the digest abstracted: md5 consumes the
concatenated UTF-8 bytes of the input strings, so it is `hash ∘ String.join`
for the (deterministic) digest function `hash`. -/
def computeIdentifier (hash : String → String) (properties : List String) (obj : JSON) :
    Option String :=
  (computeIdentifierInput properties obj).map fun l => hash (String.join l)

theorem mem_insertSorted (x y : String) (l : List String) :
    y ∈ insertSorted x l ↔ y = x ∨ y ∈ l := by
  induction l with
  | nil => simp [insertSorted]
  | cons z rest ih =>
    rw [insertSorted]
    split
    · simp
    · simp only [List.mem_cons, ih]
      tauto

theorem mem_sortStrs (y : String) (l : List String) : y ∈ sortStrs l ↔ y ∈ l := by
  induction l with
  | nil => simp [sortStrs]
  | cons z rest ih =>
    simp only [sortStrs, List.foldr_cons] at *
    rw [mem_insertSorted, ih]
    simp

/-- Replace the value bound to an existing key, keeping its position; no-op
when the key is absent. -/
def dModify (d : Dict) (k : String) (f : JSON → JSON) : Dict :=
  match d with
  | [] => []
  | (k', v) :: rest => if k' = k then (k', f v) :: rest else (k', v) :: dModify rest k f

/-- Replace the i-th element of a list; no-op out of range. -/
def listModify {α : Type} (l : List α) (i : Nat) (f : α → α) : List α :=
  match l, i with
  | [], _ => []
  | x :: rest, 0 => f x :: rest
  | x :: rest, n + 1 => x :: listModify rest n f

/-- Read the sub-value at an access path. -/
def jReadAt (j : JSON) : List JSONPath → JSON
  | [] => j
  | .field k :: rest =>
    match j with
    | .obj d => jReadAt (dGet d k) rest
    | _ => .null
  | .index i :: rest =>
    match j with
    | .arr l => jReadAt ((l.get? i).getD .null) rest
    | _ => .null

/-- Apply a function to the sub-value at an access path (the functional image
of a Python in-place mutation through an object reference); no-op when the
path does not exist. -/
def jSetAt (j : JSON) : List JSONPath → (JSON → JSON) → JSON
  | [], f => f j
  | .field k :: rest, f =>
    match j with
    | .obj d => .obj (dModify d k fun v => jSetAt v rest f)
    | _ => j
  | .index i :: rest, f =>
    match j with
    | .arr l => .arr (listModify l i fun v => jSetAt v rest f)
    | _ => j

/-- Read the live schema fragment a ghost location points to, falling back to
the captured value for fragments not reachable from the bundle (fresh `{}`
literals and None, which Python mutations could not make visible either). -/
def readSchemaAt (schemas : Dict) (loc : Option SLoc) (captured : JSON) : JSON :=
  match loc with
  | some (p, steps) => jReadAt (dGet schemas p) steps
  | none => captured

/-- Apply a mutation at a schema ghost location; lost when the fragment is
not reachable from the bundle, exactly as Python mutations of the fresh `{}`
default are lost. -/
def updateSchemasAt (schemas : Dict) (loc : Option SLoc) (f : JSON → JSON) : Dict :=
  match loc with
  | some (p, steps) => dModify schemas p fun doc => jSetAt doc steps f
  | none => schemas

/-- `IDENTIFIER_FIELD_NAME` and `IDENTIFIER_SCHEMA` (postprocess_v2.py lines
19-24). -/
def IDENTIFIER_FIELD_NAME : String := "__identifier"

def identifierFieldSchema : JSON := .obj [("type", .s "string")]

/-- `CHECKSUM_FIELD_SCHEMA` (postprocess_v2.py lines 15-18). -/
def CHECKSUM_FIELD_SCHEMA : JSON :=
  .obj [("type", .s "string"), ("description", .s "sha256sum of the datafile")]

/-- `ContextUniqueNode` (postprocess_v2.py lines 35-46) plus the ghost
locations of its three captured object references: the schema fragment, the
union root fragment, and the data object (held as the document path plus the
access path inside that document). -/
structure ContextUniqueNode where
  schema : JSON
  schemaOneOfRoot : JSON
  data : JSON
  props : List String
  path : String
  jsonpath : String
  schemaLoc : Option SLoc
  oneOfRootLoc : Option SLoc
  dataSteps : List JSONPath
deriving Repr

/-- Union of two string sets represented as duplicate-free lists (the order
is irrelevant: every consumer sorts). -/
def unionStrs (a c : List String) : List String :=
  a ++ c.filter fun x => !a.contains x

/-- `_is_context_unique_field` (postprocess_v2.py lines 214-216). -/
def isContextUniqueFieldPost (f : JSON) : Bool :=
  pyTruthy (jGet f "isUnique") || pyTruthy (jGet f "isContextUnique")

/-- The unique/context-unique field names of a record type, as collected by
`_build_crossref_unique_field_node` (postprocess_v2.py lines 176-180).
Non-string field names would crash Python's later `sorted()` and are
dropped. -/
def propsPost (t : GraphqlTypeV2) : List String :=
  t.fields.filterMap fun (k, f) =>
    match k with
    | .s nm => if isContextUniqueFieldPost f then some nm else none
    | _ => none

/-- `patch_context_unique_schema_and_data` (postprocess_v2.py lines 77-90),
as a functional update of the schema and data maps; the identifier digest is
the abstract `hash` over the concatenated input (see `computeIdentifier`). -/
def patchContextUniqueSchemaAndData (hash : String → String) (cun : ContextUniqueNode)
    (schemas : Dict) (data : Dict) : Except PyErr (Dict × Dict) :=
  let liveData := jReadAt (dGet data cun.path) cun.dataSteps
  match computeIdentifier hash cun.props liveData with
  | none => pure (schemas, data)
  | some idv =>
    if idv = "" then pure (schemas, data)
    else
      match readSchemaAt schemas cun.schemaLoc cun.schema with
      | .obj sd =>
        if dMem sd "properties" then
          match dGet sd "properties" with
          | .obj _ =>
            let schemas1 := updateSchemasAt schemas cun.schemaLoc fun s =>
              match s with
              | .obj sd' => .obj (dModify sd' "properties" fun props =>
                  match props with
                  | .obj pd => .obj (dInsert pd IDENTIFIER_FIELD_NAME identifierFieldSchema)
                  | other => other)
              | other => other
            let liveRoot := readSchemaAt schemas1 cun.oneOfRootLoc cun.schemaOneOfRoot
            let schemas2Result : Except PyErr Dict :=
              match liveRoot with
              | .obj rd =>
                if rd.isEmpty then pure schemas1
                else if !dMem rd "properties" then
                  pure (updateSchemasAt schemas1 cun.oneOfRootLoc fun r =>
                    match r with
                    | .obj rd' => .obj (dInsert rd' "properties"
                        (.obj [(IDENTIFIER_FIELD_NAME, identifierFieldSchema)]))
                    | other => other)
                else
                  match dGet rd "properties" with
                  | .obj _ =>
                    pure (updateSchemasAt schemas1 cun.oneOfRootLoc fun r =>
                      match r with
                      | .obj rd' => .obj (dModify rd' "properties" fun props =>
                          match props with
                          | .obj pd => .obj (dInsert pd IDENTIFIER_FIELD_NAME identifierFieldSchema)
                          | other => other)
                      | other => other)
                  | _ => throw (PyErr.attributeError "one_of_root properties has no attribute update")
              | _ => pure schemas1
            match schemas2Result with
            | .error e => throw e
            | .ok schemas2 =>
              match liveData with
              | .obj _ =>
                pure (schemas2, dModify data cun.path fun doc =>
                  jSetAt doc cun.dataSteps fun dv =>
                    match dv with
                    | .obj dd => .obj (dInsert dd IDENTIFIER_FIELD_NAME (.s idv))
                    | other => other)
              | _ => throw (PyErr.typeError "data object does not support item assignment")
          | _ => throw (PyErr.attributeError "schema properties has no attribute update")
        else throw (PyErr.keyError (.s "properties"))
      | _ => throw (PyErr.typeError "schema is not subscriptable")

/-- Body of the `patch_schema_checksum_field` loop (postprocess_v2.py lines
97-99) for one schema document: when its own `$schema` equals the root
meta-schema marker, set `properties[checksum_field_name]`. -/
def patchOneChecksumSchema (nm : String) (s : JSON) : Except PyErr JSON :=
  match s with
  | .obj sd =>
    if dMem sd "$schema" then
      if pyEq (dGet sd "$schema") (.s "/metaschema-1.json") then
        if dMem sd "properties" then
          match dGet sd "properties" with
          | .obj pd =>
            pure (.obj (dModify sd "properties" fun _ =>
              .obj (dInsert pd nm CHECKSUM_FIELD_SCHEMA)))
          | _ => throw (PyErr.typeError "properties does not support item assignment")
        else throw (PyErr.keyError (.s "properties"))
      else pure s
    else throw (PyErr.keyError (.s "$schema"))
  | _ => throw (PyErr.typeError "schema is not subscriptable")

/-- `patch_schema_checksum_field` (postprocess_v2.py lines 93-99) over all
schema documents, in order. -/
def patchSchemaChecksumField (schemas : Dict) (nm : String) : Except PyErr Dict :=
  match schemas with
  | [] => pure []
  | (p, s) :: rest =>
    match patchOneChecksumSchema nm s with
    | .error e => throw e
    | .ok s' =>
      match patchSchemaChecksumField rest nm with
      | .error e => throw e
      | .ok rest' => pure ((p, s') :: rest')

/-- `build_backref` (postprocess_v2.py lines 102-138). -/
def buildBackref (gl : GraphqlLookup) (node : Node) : Option JSON :=
  match node.schema with
  | .obj sd =>
    if pyEq (dGet sd "$ref") (.s RESOURCE_REF) && pyTruthy node.data
        && pyTruthy node.fileSchemaPath then
      let typeName :=
        match gl.getBySchema node.fileSchemaPath with
        | some t => t.name
        | none => .s ""
      some (.obj [("path", .s node.path), ("datafileSchema", node.fileSchemaPath),
        ("type", typeName), ("jsonpath", .s (build_jsonpath node.jsonpaths))])
    else none
  | _ => none

/-- Match of `build_context_unique_node` (postprocess_v2.py lines 156-164):
the final two path steps must be an array index then a field name. -/
def endsIndexField (l : List JSONPath) : Option String :=
  match l.reverse with
  | .field f :: .index _ :: _ => some f
  | _ => none

/-- `_build_crossref_unique_field_node` (postprocess_v2.py lines 167-190). -/
def buildCrossrefUniqueFieldNode (b : Bundle) (gl : GraphqlLookup) (node : Node) :
    Option ContextUniqueNode :=
  match node.data with
  | .s p =>
    if p = "" then none
    else
      let data := dGet b.data p
      if pyTruthy data then
        let schemaPath := jGet data "$schema"
        if pyTruthy schemaPath then
          match gl.getBySchema schemaPath with
          | some graphqlType =>
            let schema := schemasGet b.schemas schemaPath
            if pyTruthy schema then
              let props := propsPost graphqlType
              if props.isEmpty then none
              else
                some { schema := schema, schemaOneOfRoot := .null, data := data
                       props := props, path := p, jsonpath := ""
                       schemaLoc :=
                         match schemaPath with
                         | .s sp => some (sp, [])
                         | _ => none
                       oneOfRootLoc := none, dataSteps := [] }
            else none
          | none => none
        else none
      else none
  | _ => none

/-- `_build_array_item_unique_field_node` (postprocess_v2.py lines 193-211). -/
def buildArrayItemUniqueFieldNode (gl : GraphqlLookup) (node : Node) (field : String) :
    Option ContextUniqueNode :=
  match node.parent with
  | some parent =>
    match parent.data with
    | .obj _ =>
      let graphqlField := node.graphqlField gl
      if pyTruthy graphqlField && isContextUniqueFieldPost graphqlField then
        some { schema := parent.schema, schemaOneOfRoot := parent.schemaOneOfRoot
               data := parent.data, props := [field], path := node.path
               jsonpath := build_jsonpath node.jsonpaths.dropLast
               schemaLoc := parent.schemaLoc, oneOfRootLoc := parent.oneOfRootLoc
               dataSteps := node.jsonpaths.dropLast }
      else none
    | _ => none
  | none => none

/-- `build_context_unique_node` (postprocess_v2.py lines 141-164). -/
def buildContextUniqueNode (b : Bundle) (gl : GraphqlLookup) (node : Node) :
    Option ContextUniqueNode :=
  match endsIndexField node.jsonpaths with
  | some f =>
    if f = "$ref" then buildCrossrefUniqueFieldNode b gl node
    else buildArrayItemUniqueFieldNode gl node f
  | none => none

/-- Append to the backref index (`defaultdict(list)` keyed by the node's data
value, postprocess_v2.py lines 56-61). -/
def backrefsAppend (entries : List (JSON × List JSON)) (k : JSON) (v : JSON) :
    List (JSON × List JSON) :=
  match entries with
  | [] => [(k, [v])]
  | (k', vs) :: rest =>
    if pyEq k' k then (k', vs ++ [v]) :: rest else (k', vs) :: backrefsAppend rest k v

/-- Insert a context-unique group, merging props into an existing group with
the same `(path, jsonpath)` key (postprocess_v2.py lines 63-68). -/
def groupsInsert (groups : List ((String × String) × ContextUniqueNode))
    (cun : ContextUniqueNode) : List ((String × String) × ContextUniqueNode) :=
  match groups with
  | [] => [((cun.path, cun.jsonpath), cun)]
  | (key, existing) :: rest =>
    if key = (cun.path, cun.jsonpath) then
      (key, { existing with props := unionStrs existing.props cun.props }) :: rest
    else (key, existing) :: groupsInsert rest cun

/-- One step of the collection loop of `postprocess_bundle`
(postprocess_v2.py lines 59-68). -/
def postprocessCollectStep (b : Bundle) (gl : GraphqlLookup)
    (acc : (List (JSON × List JSON)) × (List ((String × String) × ContextUniqueNode)))
    (node : Node) :
    (List (JSON × List JSON)) × (List ((String × String) × ContextUniqueNode)) :=
  let backrefs :=
    match buildBackref gl node with
    | some br => backrefsAppend acc.1 node.data br
    | none => acc.1
  let groups :=
    match buildContextUniqueNode b gl node with
    | some cun => groupsInsert acc.2 cun
    | none => acc.2
  (backrefs, groups)

/-- The collection loop of `postprocess_bundle` (postprocess_v2.py lines
56-68) over the traversal stream, in stream order. -/
def postprocessCollect (b : Bundle) (gl : GraphqlLookup)
    (acc : (List (JSON × List JSON)) × (List ((String × String) × ContextUniqueNode))) :
    List Node → (List (JSON × List JSON)) × (List ((String × String) × ContextUniqueNode))
  | [] => acc
  | node :: rest => postprocessCollect b gl (postprocessCollectStep b gl acc node) rest

/-- Backref assignment loop of `postprocess_bundle` (postprocess_v2.py lines
70-71): every resource gets a `backrefs` key, defaulting to the empty list. -/
def assignBackrefs (resources : Dict) (backrefs : List (JSON × List JSON)) :
    Except PyErr Dict :=
  match resources with
  | [] => pure []
  | (p, r) :: rest =>
    match r with
    | .obj rd =>
      match assignBackrefs rest backrefs with
      | .error e => throw e
      | .ok rest' =>
        pure ((p, .obj (dInsert rd "backrefs" (.arr ((vGet backrefs (.s p)).getD [])))) :: rest')
    | _ => throw (PyErr.typeError "resource does not support item assignment")

/-- Patch loop of `postprocess_bundle` (postprocess_v2.py lines 73-74), in
group insertion order. -/
def applyContextUniquePatches (hash : String → String)
    (groups : List ((String × String) × ContextUniqueNode))
    (schemas : Dict) (data : Dict) : Except PyErr (Dict × Dict) :=
  match groups with
  | [] => pure (schemas, data)
  | (_, cun) :: rest =>
    match patchContextUniqueSchemaAndData hash cun schemas data with
    | .error e => throw e
    | .ok (schemas1, data1) => applyContextUniquePatches hash rest schemas1 data1

/-- `postprocess_bundle` (postprocess_v2.py lines 49-74): checksum schema
patch, one traversal pass collecting the backref index and the context-unique
groups, backref assignment, then the identifier patches. -/
def postprocessBundle (hash : String → String) (b : Bundle) (gl : GraphqlLookup)
    (checksumFieldName : Option String) : Except PyErr Bundle := do
  let schemas0 ←
    match checksumFieldName with
    | some nm => if nm = "" then pure b.schemas else patchSchemaChecksumField b.schemas nm
    | none => pure b.schemas
  let b1 : Bundle := { graphql := b.graphql, data := b.data, schemas := schemas0
                       resources := b.resources }
  let (backrefs, groups) := postprocessCollect b1 gl ([], []) (traverseData b1 gl)
  let resources1 ← assignBackrefs b1.resources backrefs
  match applyContextUniquePatches hash groups schemas0 b.data with
  | .error e => throw e
  | .ok (schemas1, data1) =>
    pure { graphql := b.graphql, data := data1, schemas := schemas1, resources := resources1 }

theorem computeIdentifierInput_congr (props : List String) (obj1 obj2 : JSON)
    (hagree : ∀ p ∈ props, jGet obj1 p = jGet obj2 p) :
    computeIdentifierInput props obj1 = computeIdentifierInput props obj2 := by
  unfold computeIdentifierInput
  have hmap : (sortStrs props).map (fun item => toHashable (jGet obj1 item)) =
      (sortStrs props).map (fun item => toHashable (jGet obj2 item)) :=
    List.map_congr_left fun p hp => by rw [hagree p ((mem_sortStrs p props).mp hp)]
  rw [hmap]

theorem computeIdentifierInput_none (props : List String) (obj : JSON)
    (hnull : ∀ p ∈ props, jGet obj p = .null) :
    computeIdentifierInput props obj = none := by
  unfold computeIdentifierInput
  have hall : ((sortStrs props).map fun item => toHashable (jGet obj item)).all
      (fun x => isNull x) = true := by
    rw [List.all_eq_true]
    intro x hx
    rw [List.mem_map] at hx
    obtain ⟨p, hp, hpx⟩ := hx
    rw [hnull p ((mem_sortStrs p props).mp hp)] at hpx
    rw [← hpx]
    rfl
  rw [hall]
  simp

/-- C6 (amended): the identifier is a deterministic function of the sorted
unique-field names' values (absent treated as null): objects agreeing on the
field set get equal identifiers; all-null values produce no identifier and no
data or schema patch for the group.  The claim's remaining part — that
changing any field's value changes the identifier — fails because the digest
consumes only the concatenated Python string serializations of the values
(see `C6_counterexample`). -/
theorem C6_amended_identifier_determinism
    (hash : String → String) (props : List String) (obj1 obj2 obj : JSON)
    (cun : ContextUniqueNode) (schemas data : Dict)
    (hagree : ∀ p ∈ props, jGet obj1 p = jGet obj2 p)
    (hnull : ∀ p ∈ props, jGet obj p = .null)
    (hcun : ∀ p ∈ cun.props, jGet (jReadAt (dGet data cun.path) cun.dataSteps) p = .null) :
    computeIdentifier hash props obj1 = computeIdentifier hash props obj2 ∧
    computeIdentifier hash props obj = none ∧
    patchContextUniqueSchemaAndData hash cun schemas data = .ok (schemas, data) := by
  refine ⟨?_, ?_, ?_⟩
  · unfold computeIdentifier
    rw [computeIdentifierInput_congr props obj1 obj2 hagree]
  · unfold computeIdentifier
    rw [computeIdentifierInput_none props obj hnull]
    rfl
  · have hid : computeIdentifier hash cun.props
        (jReadAt (dGet data cun.path) cun.dataSteps) = none := by
      unfold computeIdentifier
      rw [computeIdentifierInput_none _ _ hcun]
      rfl
    simp only [patchContextUniqueSchemaAndData]
    rw [hid]
    rfl

def obj1C6 : JSON := .obj [("a", .null), ("b", .i 1)]

def obj2C6 : JSON := .obj [("a", .s "None"), ("b", .i 1)]

/-- C6 (counterexample): changing field `a` from null to the string `"None"`
is a change of that field's value, yet the digest input — the sequence of
Python string serializations of the sorted field values — is identical
(`str(None) = "None"`), so the md5-based identifier, a function of that
input, is unchanged.  The claim that changing any field's value in the set
changes the identifier is therefore false. -/
theorem C6_counterexample :
    jGet obj1C6 "a" ≠ jGet obj2C6 "a" ∧
    computeIdentifierInput ["a", "b"] obj1C6 = some ["None", "1"] ∧
    computeIdentifierInput ["a", "b"] obj2C6 = some ["None", "1"] ∧
    computeIdentifier (fun s => s) ["a", "b"] obj1C6 =
      computeIdentifier (fun s => s) ["a", "b"] obj2C6 := by
  refine ⟨fun h => JSON.noConfusion h, by rfl, by rfl, by rfl⟩

def cunC6 : ContextUniqueNode :=
  { schema := .obj [("properties", .obj [])], schemaOneOfRoot := .null
    data := .obj [("x", .null)], props := ["x"], path := "/d.yml", jsonpath := ""
    schemaLoc := none, oneOfRootLoc := none, dataSteps := [] }

theorem C6_witness :
    computeIdentifier (fun s => s) ["x"] (.obj [("x", .i 1)]) =
      computeIdentifier (fun s => s) ["x"] (.obj [("x", .i 1)]) ∧
    computeIdentifier (fun s => s) ["x"] (.obj [("x", .null)]) = none ∧
    patchContextUniqueSchemaAndData (fun s => s) cunC6
      [] [("/d.yml", .obj [("x", .null)])] = .ok ([], [("/d.yml", .obj [("x", .null)])]) := by
  have h := C6_amended_identifier_determinism (fun s => s) ["x"]
    (.obj [("x", .i 1)]) (.obj [("x", .i 1)]) (.obj [("x", .null)])
    cunC6 [] [("/d.yml", .obj [("x", .null)])]
    (by intro p hp; rfl)
    (by intro p hp; simp only [List.mem_singleton] at hp; subst hp; rfl)
    (by intro p hp; simp only [cunC6, List.mem_singleton] at hp; subst hp; rfl)
  exact h

/-- A schema document whose own `$schema` is the root meta-schema marker. -/
def isMetaschemaDoc (s : JSON) : Bool :=
  match s with
  | .obj sd => pyEq (dGet sd "$schema") (.s "/metaschema-1.json")
  | _ => false

/-- The per-document effect of `patch_schema_checksum_field` on documents it
does not crash on. -/
def patchedChecksumSchema (nm : String) (s : JSON) : JSON :=
  match s with
  | .obj sd =>
    if pyEq (dGet sd "$schema") (.s "/metaschema-1.json") then
      match dGet sd "properties" with
      | .obj pd => .obj (dModify sd "properties" fun _ => .obj (dInsert pd nm CHECKSUM_FIELD_SCHEMA))
      | _ => s
    else s
  | _ => s

theorem dGet_dInsert_same (d : Dict) (k : String) (v : JSON) :
    dGet (dInsert d k v) k = v := by
  induction d with
  | nil => simp [dInsert, dGet]
  | cons e rest ih =>
    obtain ⟨k', v'⟩ := e
    rw [dInsert]
    split
    · rename_i h; rw [dGet, if_pos rfl]
    · rename_i h; rw [dGet, if_neg h, ih]

theorem dGet_dInsert_ne (d : Dict) (k k' : String) (v : JSON) (hne : k' ≠ k) :
    dGet (dInsert d k v) k' = dGet d k' := by
  induction d with
  | nil =>
    simp only [dInsert, dGet]
    rw [if_neg (fun h => hne h.symm)]
  | cons e rest ih =>
    obtain ⟨k0, v0⟩ := e
    rw [dInsert]
    split
    · rename_i h
      subst h
      rw [dGet, dGet, if_neg (fun h => hne h.symm), if_neg (fun h => hne h.symm)]
    · rw [dGet, dGet]
      split
      · rfl
      · exact ih

theorem dGet_dModify_ne (d : Dict) (k k' : String) (f : JSON → JSON) (hne : k' ≠ k) :
    dGet (dModify d k f) k' = dGet d k' := by
  induction d with
  | nil => rfl
  | cons e rest ih =>
    obtain ⟨k0, v0⟩ := e
    rw [dModify]
    split
    · rename_i h
      subst h
      rw [dGet, dGet, if_neg (fun h => hne h.symm), if_neg (fun h => hne h.symm)]
    · rw [dGet, dGet]
      split
      · rfl
      · exact ih

theorem patchOneChecksumSchema_ok (nm : String) (s s' : JSON)
    (hok : patchOneChecksumSchema nm s = .ok s') : s' = patchedChecksumSchema nm s := by
  unfold patchOneChecksumSchema at hok
  split at hok <;> try (injection hok; done)
  rename_i sd
  split at hok
  · rename_i h1
    split at hok
    · rename_i h2
      split at hok
      · rename_i h3
        split at hok <;> try (injection hok; done)
        rename_i pd h4
        simp only [pure, Except.pure, Except.ok.injEq] at hok
        simp only [patchedChecksumSchema]
        rw [if_pos h2, h4]
        exact hok.symm
      · injection hok
    · rename_i h2
      simp only [pure, Except.pure, Except.ok.injEq] at hok
      simp only [patchedChecksumSchema]
      rw [if_neg h2]
      exact hok.symm
  · injection hok

theorem patchSchemaChecksumField_map (schemas : Dict) (nm : String) (schemas' : Dict)
    (hok : patchSchemaChecksumField schemas nm = .ok schemas') :
    schemas' = schemas.map fun e => (e.1, patchedChecksumSchema nm e.2) := by
  induction schemas generalizing schemas' with
  | nil =>
    rw [patchSchemaChecksumField] at hok
    simp only [pure, Except.pure, Except.ok.injEq] at hok
    rw [← hok]
    rfl
  | cons e rest ih =>
    obtain ⟨p, s⟩ := e
    rw [patchSchemaChecksumField] at hok
    split at hok <;> try (injection hok; done)
    rename_i s1 hs1
    split at hok <;> try (injection hok; done)
    rename_i rest' hrest
    simp only [pure, Except.pure, Except.ok.injEq] at hok
    rw [← hok, List.map_cons, ih rest' hrest, patchOneChecksumSchema_ok nm s s1 hs1]

theorem dMem_of_dGet_obj (d : Dict) (k : String) (pd : Dict)
    (h : dGet d k = .obj pd) : dMem d k = true := by
  induction d with
  | nil => exact absurd h (by rw [dGet]; exact fun hh => JSON.noConfusion hh)
  | cons e rest ih =>
    obtain ⟨k0, v0⟩ := e
    rw [dGet] at h
    rw [dMem]
    split at h
    · rename_i hk; simp [hk]
    · rename_i hk
      rw [Bool.or_eq_true]
      exact Or.inr (ih h)

theorem dGet_dModify_same (d : Dict) (k : String) (f : JSON → JSON)
    (h : dMem d k = true) : dGet (dModify d k f) k = f (dGet d k) := by
  induction d with
  | nil => exact absurd h (by rw [dMem]; simp)
  | cons e rest ih =>
    obtain ⟨k0, v0⟩ := e
    rw [dMem] at h
    rw [dModify]
    split
    · rename_i hk
      rw [dGet, if_pos hk, dGet, if_pos hk]
    · rename_i hk
      rw [dGet, if_neg hk, dGet, if_neg hk]
      rw [Bool.or_eq_true] at h
      rcases h with h | h
      · exact absurd (by simpa using h) hk
      · exact ih h

/-- C8: when postprocessing is invoked with a checksum field name and the
checksum patch completes, a string-typed property declaration of that name is
added to exactly the schema documents whose own `$schema` equals the root
meta-schema marker; every other schema document is unchanged, and in patched
documents every property other than the checksum field, and every top-level
key other than `properties`, is unchanged. -/
theorem C8_checksum_patch_characterization
    (schemas : Dict) (nm : String) (schemas' : Dict)
    (hok : patchSchemaChecksumField schemas nm = .ok schemas') :
    schemas' = (schemas.map fun e => (e.1, patchedChecksumSchema nm e.2)) ∧
    (∀ s, isMetaschemaDoc s = false → patchedChecksumSchema nm s = s) ∧
    (∀ sd pd, isMetaschemaDoc (.obj sd) = true → dGet sd "properties" = .obj pd →
      jGet (patchedChecksumSchema nm (.obj sd)) "properties" =
        .obj (dInsert pd nm CHECKSUM_FIELD_SCHEMA) ∧
      ∀ k, k ≠ "properties" → jGet (patchedChecksumSchema nm (.obj sd)) k = jGet (.obj sd) k) ∧
    (∀ pd k, k ≠ nm → dGet (dInsert pd nm CHECKSUM_FIELD_SCHEMA) k = dGet pd k) ∧
    (∀ pd, dGet (dInsert pd nm CHECKSUM_FIELD_SCHEMA) nm = CHECKSUM_FIELD_SCHEMA) := by
  refine ⟨patchSchemaChecksumField_map schemas nm schemas' hok, ?_, ?_,
    fun pd k hk => dGet_dInsert_ne pd nm k CHECKSUM_FIELD_SCHEMA hk,
    fun pd => dGet_dInsert_same pd nm CHECKSUM_FIELD_SCHEMA⟩
  · intro s hmeta
    match s with
    | .null | .b _ | .i _ | .s _ | .arr _ => rfl
    | .obj sd =>
      rw [isMetaschemaDoc] at hmeta
      simp only [patchedChecksumSchema]
      rw [if_neg (by simp [hmeta])]
  · intro sd pd hmeta hpd
    rw [isMetaschemaDoc] at hmeta
    constructor
    · simp only [patchedChecksumSchema]
      rw [if_pos hmeta, hpd]
      rw [jGet]
      rw [dGet_dModify_same sd "properties" _ (dMem_of_dGet_obj sd "properties" pd hpd)]
    · intro k hk
      simp only [patchedChecksumSchema]
      rw [if_pos hmeta, hpd]
      rw [jGet, jGet]
      exact dGet_dModify_ne sd "properties" k _ hk

def schemasW8 : Dict :=
  [("/s1.yml", .obj [("$schema", .s "/metaschema-1.json"), ("properties", .obj [("a", .obj [])])]),
   ("/s2.yml", .obj [("$schema", .s "/other-1.json"), ("properties", .obj [])])]

theorem C8_witness :
    ∃ schemas', patchSchemaChecksumField schemasW8 "$file_sha256sum" = .ok schemas' ∧
      schemas' = (schemasW8.map fun e => (e.1, patchedChecksumSchema "$file_sha256sum" e.2)) := by
  refine ⟨(patchSchemaChecksumField schemasW8 "$file_sha256sum").toOption.getD [], by rfl, ?_⟩
  exact (C8_checksum_patch_characterization schemasW8 "$file_sha256sum" _ (by rfl)).1

/-- C10 (amended): a record-type catalog without a `Query` entry makes Bundle
construction raise — but the exception depends on the catalog form.  In the
confs (dict) form with non-empty confs whose comprehensions succeed, the
raise is the KeyError from indexing the `Query` type; in the list form,
construction always raises (even when a `Query` entry exists), because
`__post_init__` unconditionally calls `.get` on the `graphql` value, which a
list does not support. -/
theorem C10_amended_query_requirement :
    (∀ l : List JSON, ∃ e, bundlePostInit (.arr l) = .error e) ∧
    (∀ (d : Dict) (confs : List JSON) (byName schemaToType : List (JSON × GraphqlTypeV1)),
      dGet d "confs" = .arr confs →
      dMem d "confs" = true →
      confs ≠ [] →
      postInitConfFold confs = .ok byName →
      postInitDatafileFold byName confs = .ok schemaToType →
      vGet byName (.s "Query") = none →
      bundlePostInit (.obj d) = .error (.keyError (.s "Query"))) := by
  constructor
  · intro l
    simp only [bundlePostInit, bind, Except.bind]
    cases h : postInitConfFold l with
    | error e => exact ⟨e, rfl⟩
    | ok v => exact ⟨.attributeError "list object has no attribute get", rfl⟩
  · intro d confs byName schemaToType hconfs hmem hne hfold hdf hquery
    have htruthy : pyTruthy (.arr confs) = true := by
      rw [pyTruthy]
      simp [hne]
    simp [bundlePostInit, bind, Except.bind, jGetD, pure, Except.pure,
      hmem, hconfs, htruthy, hfold, hdf, hquery]

def catalogC10 : JSON := .arr [.obj [("name", .s "A"), ("fields", .arr [])]]

/-- C10 (counterexample): for the list-form catalog `[{name: "A", fields: []}]`
— which has no entry named `Query` — Bundle construction raises an
`AttributeError` (line 223 calls `.get` on the list), not the KeyError from
indexing the Query type that the claim names. -/
theorem C10_counterexample :
    bundlePostInit catalogC10 = .error (.attributeError "list object has no attribute get") ∧
    bundlePostInit catalogC10 ≠ .error (.keyError (.s "Query")) := by
  refine ⟨by rfl, ?_⟩
  intro h
  rw [show bundlePostInit catalogC10 =
    .error (.attributeError "list object has no attribute get") from rfl] at h
  injection h with h2
  exact PyErr.noConfusion h2

def confsW10 : List JSON := [.obj [("name", .s "A"), ("fields", .arr [])]]

def byNameW10 : List (JSON × GraphqlTypeV1) := (postInitConfFold confsW10).toOption.getD []

theorem C10_witness :
    bundlePostInit (.obj [("confs", .arr confsW10)]) = .error (.keyError (.s "Query")) :=
  (C10_amended_query_requirement).2 [("confs", .arr confsW10)] confsW10 byNameW10
    ((postInitDatafileFold byNameW10 confsW10).toOption.getD [])
    rfl rfl (fun h => List.noConfusion h) rfl rfl rfl

theorem pyEq_s_right (x : JSON) (p : String) : pyEq x (.s p) = true ↔ x = .s p := by
  cases x <;> simp [pyEq]

/-- The qualifying condition of the backref-completeness property, written
from the claim: a leaf whose schema fragment is exactly the reserved
resource-reference marker, with non-empty string data naming `p`, inside a
document with a known schema path. -/
def qualifiesBackref (n : Node) (p : String) : Bool :=
  n.isResourceRef &&
    (match n.data with
     | .s q => decide (q = p) && decide (q ≠ "")
     | _ => false) &&
    pyTruthy n.fileSchemaPath

/-- The backref entries resource `p` should receive, from the claim: exactly
one per qualifying leaf, in traversal order, carrying the referencing
document's path, its schema path and the serialized access path. -/
def backrefsOf (gl : GraphqlLookup) (nodes : List Node) (p : String) : List JSON :=
  (nodes.filter fun n => qualifiesBackref n p).map fun n =>
    .obj [("path", .s n.path), ("datafileSchema", n.fileSchemaPath),
      ("type",
        match gl.getBySchema n.fileSchemaPath with
        | some t => t.name
        | none => .s ""),
      ("jsonpath", .s (build_jsonpath n.jsonpaths))]

theorem buildBackref_qualifies (gl : GraphqlLookup) (n : Node) (p : String) :
    (match buildBackref gl n with
     | some br => if pyEq n.data (.s p) then some br else none
     | none => none) =
    (if qualifiesBackref n p then
      some (.obj [("path", .s n.path), ("datafileSchema", n.fileSchemaPath),
        ("type",
          match gl.getBySchema n.fileSchemaPath with
          | some t => t.name
          | none => .s ""),
        ("jsonpath", .s (build_jsonpath n.jsonpaths))])
     else none) := by
  unfold buildBackref qualifiesBackref Node.isResourceRef
  cases hs : n.schema with
  | obj sd =>
    dsimp only
    by_cases href : pyEq (dGet sd "$ref") (.s RESOURCE_REF) = true
    · rw [href]
      cases hd : n.data with
      | s q =>
        by_cases hq : q = p
        · subst hq
          by_cases hqe : q = ""
          · subst hqe
            simp [pyTruthy, pyEq]
          · cases hf : pyTruthy n.fileSchemaPath <;> simp only [pyTruthy] at hf <;>
              simp [pyTruthy, pyEq, hqe, hf]
        · by_cases hqe : q = ""
          · subst hqe
            simp [pyTruthy, pyEq, hq]
          · cases hf : pyTruthy n.fileSchemaPath <;> simp only [pyTruthy] at hf <;>
              simp [pyTruthy, pyEq, hq, hqe, hf]
      | null => simp [pyTruthy, pyEq]
      | b v =>
        cases v with
        | false => simp [pyTruthy, pyEq]
        | true =>
          cases hf : pyTruthy n.fileSchemaPath <;> simp only [pyTruthy] at hf <;>
            simp [pyTruthy, pyEq, hf]
      | i v =>
        by_cases hz : v = 0
        · subst hz
          simp [pyTruthy, pyEq]
        · cases hf : pyTruthy n.fileSchemaPath <;> simp only [pyTruthy] at hf <;>
            simp [pyTruthy, pyEq, hz, hf]
      | arr items =>
        cases items with
        | nil => simp [pyTruthy, pyEq]
        | cons x rest =>
          cases hf : pyTruthy n.fileSchemaPath <;> simp only [pyTruthy] at hf <;>
            simp [pyTruthy, pyEq, hf]
      | obj entries =>
        cases entries with
        | nil => simp [pyTruthy, pyEq]
        | cons x rest =>
          cases hf : pyTruthy n.fileSchemaPath <;> simp only [pyTruthy] at hf <;>
            simp [pyTruthy, pyEq, hf]
    · simp [href]
  | null => simp
  | b v => simp
  | i v => simp
  | s v => simp
  | arr items => simp

theorem pyEq_s_left (p : String) (x : JSON) : pyEq (.s p) x = true ↔ x = .s p := by
  cases x <;> simp [pyEq] <;> exact eq_comm

theorem vGet_backrefsAppend_self (entries : List (JSON × List JSON)) (p : String)
    (v : JSON) :
    vGet (backrefsAppend entries (.s p) v) (.s p) =
      some ((vGet entries (.s p)).getD [] ++ [v]) := by
  induction entries with
  | nil => simp [backrefsAppend, vGet, pyEq]
  | cons e rest ih =>
    obtain ⟨k', vs⟩ := e
    by_cases hk : pyEq k' (.s p) = true
    · simp [backrefsAppend, vGet, hk]
    · simp only [Bool.not_eq_true] at hk
      simp [backrefsAppend, vGet, hk, ih]

theorem vGet_backrefsAppend_other (entries : List (JSON × List JSON)) (k : JSON)
    (p : String) (v : JSON) (h : pyEq k (.s p) = false) :
    vGet (backrefsAppend entries k v) (.s p) = vGet entries (.s p) := by
  induction entries with
  | nil => simp [backrefsAppend, vGet, h]
  | cons e rest ih =>
    obtain ⟨k', vs⟩ := e
    by_cases hk : pyEq k' k = true
    · have hknot : pyEq k' (.s p) = false := by
        cases hcc : pyEq k' (.s p) with
        | false => rfl
        | true =>
          have hk'' := (pyEq_s_right k' p).mp hcc
          subst hk''
          have hkk := (pyEq_s_left p k).mp hk
          rw [hkk] at h
          simp [pyEq] at h
      simp [backrefsAppend, vGet, hk, hknot]
    · simp only [Bool.not_eq_true] at hk
      simp [backrefsAppend, vGet, hk, ih]

theorem postprocessCollect_backrefs (b : Bundle) (gl : GraphqlLookup) (p : String)
    (nodes : List Node) :
    ∀ acc, (vGet (postprocessCollect b gl acc nodes).1 (.s p)).getD [] =
      (vGet acc.1 (.s p)).getD [] ++ backrefsOf gl nodes p := by
  induction nodes with
  | nil =>
    intro acc
    simp [postprocessCollect, backrefsOf]
  | cons n rest ih =>
    intro acc
    rw [postprocessCollect, ih]
    have hcons : backrefsOf gl (n :: rest) p =
        (if qualifiesBackref n p then
          [JSON.obj [("path", .s n.path), ("datafileSchema", n.fileSchemaPath),
            ("type",
              match gl.getBySchema n.fileSchemaPath with
              | some t => t.name
              | none => .s ""),
            ("jsonpath", .s (build_jsonpath n.jsonpaths))]]
         else []) ++ backrefsOf gl rest p := by
      rw [backrefsOf, backrefsOf, List.filter_cons]
      split
      · simp
      · simp
    rw [hcons, ← List.append_assoc]
    congr 1
    have hbq := buildBackref_qualifies gl n p
    dsimp only [postprocessCollectStep]
    cases hbb : buildBackref gl n with
    | none =>
      rw [hbb] at hbq
      cases hqq : qualifiesBackref n p with
      | false => simp [hqq]
      | true =>
        rw [hqq] at hbq
        simp at hbq
    | some br =>
      rw [hbb] at hbq
      cases hpe : pyEq n.data (.s p) with
      | false =>
        rw [hpe] at hbq
        rw [vGet_backrefsAppend_other acc.1 n.data p br hpe]
        cases hqq : qualifiesBackref n p with
        | false => simp [hqq]
        | true =>
          rw [hqq] at hbq
          simp at hbq
      | true =>
        have hnd := (pyEq_s_right n.data p).mp hpe
        rw [hpe] at hbq
        cases hqq : qualifiesBackref n p with
        | false =>
          rw [hqq] at hbq
          simp at hbq
        | true =>
          rw [hqq] at hbq
          simp only [if_pos] at hbq
          simp only [Option.some.injEq] at hbq
          rw [hnd, vGet_backrefsAppend_self]
          simp [hqq, hbq]

theorem assignBackrefs_mem (backrefs : List (JSON × List JSON)) :
    ∀ (resources out : Dict), assignBackrefs resources backrefs = .ok out →
      ∀ (p : String) (rd : Dict), (p, JSON.obj rd) ∈ resources →
        (p, JSON.obj (dInsert rd "backrefs"
          (.arr ((vGet backrefs (.s p)).getD [])))) ∈ out := by
  intro resources
  induction resources with
  | nil =>
    intro out hok p rd hmem
    exact absurd hmem (List.not_mem_nil _)
  | cons e rest ih =>
    intro out hok p rd hmem
    obtain ⟨q, r⟩ := e
    rw [assignBackrefs.eq_def] at hok
    dsimp only at hok
    cases r <;> try (injection hok; done)
    rename_i rd0
    cases hrest : assignBackrefs rest backrefs with
    | error e' =>
      rw [hrest] at hok
      injection hok
    | ok rest' =>
      rw [hrest] at hok
      injection hok with hout
      subst hout
      rcases List.mem_cons.mp hmem with hhead | htail
      · injection hhead with hp hr
        subst hp
        injection hr with hrd
        subst hrd
        exact List.mem_cons_self _ _
      · exact List.mem_cons_of_mem _ (ih rest' hrest p rd htail)

/-- The intermediate bundle of `postprocess_bundle` (postprocess_v2.py line
54's view of the bundle after the checksum schema patch). -/
def postChecksumBundle (b : Bundle) (schemas0 : Dict) : Bundle :=
  { graphql := b.graphql, data := b.data, schemas := schemas0, resources := b.resources }

/-- C4: after `postprocess_bundle` succeeds, every resource of the bundle has
its `backrefs` key set to exactly the list of backref entries contributed, one
per leaf in traversal order, by the traversal leaves whose schema fragment is
the reserved resource-reference marker, whose non-empty string data names this
resource, and whose containing document has a known schema path
(`backrefsOf`); in particular a resource never referenced gets the empty
list, not an absent key. -/
theorem C4_backref_assignment (hash : String → String) (b b' : Bundle)
    (gl : GraphqlLookup) (cf : Option String) (schemas0 : Dict)
    (hs0 : (match cf with
            | some nm => if nm = "" then pure b.schemas
                         else patchSchemaChecksumField b.schemas nm
            | none => pure b.schemas) = Except.ok schemas0)
    (hok : postprocessBundle hash b gl cf = .ok b')
    (p : String) (rd : Dict) (hmem : (p, JSON.obj rd) ∈ b.resources) :
    (p, JSON.obj (dInsert rd "backrefs"
      (.arr (backrefsOf gl
        (traverseData (postChecksumBundle b schemas0) gl) p)))) ∈ b'.resources := by
  simp only [postprocessBundle, bind, Except.bind, pure, Except.pure] at hok
  rcases cf with _ | nm
  · dsimp only at hok hs0
    injection hs0 with hs0'
    subst hs0'
    try dsimp only at hok
    simp only [postChecksumBundle]
    cases hres : assignBackrefs b.resources
        (postprocessCollect { graphql := b.graphql, data := b.data, schemas := b.schemas, resources := b.resources } gl ([], []) (traverseData { graphql := b.graphql, data := b.data, schemas := b.schemas, resources := b.resources } gl)).1 with
    | error e =>
      rw [hres] at hok
      injection hok
    | ok resources1 =>
      rw [hres] at hok
      dsimp only at hok
      cases happ : applyContextUniquePatches hash
          (postprocessCollect { graphql := b.graphql, data := b.data, schemas := b.schemas, resources := b.resources } gl ([], []) (traverseData { graphql := b.graphql, data := b.data, schemas := b.schemas, resources := b.resources } gl)).2 b.schemas b.data with
      | error e =>
        rw [happ] at hok
        injection hok
      | ok pr =>
        obtain ⟨schemas1, data1⟩ := pr
        rw [happ] at hok
        dsimp only at hok
        injection hok with hb'
        rw [← hb']
        have hval := assignBackrefs_mem _ _ _ hres p rd hmem
        have hbr := postprocessCollect_backrefs { graphql := b.graphql, data := b.data, schemas := b.schemas, resources := b.resources } gl p (traverseData { graphql := b.graphql, data := b.data, schemas := b.schemas, resources := b.resources } gl) ([], [])
        rw [hbr] at hval
        simpa [vGet] using hval
  · dsimp only at hok hs0
    by_cases hnm : nm = ""
    · rw [if_pos hnm] at hok hs0
      injection hs0 with hs0'
      subst hs0'
      try dsimp only at hok
      simp only [postChecksumBundle]
      cases hres : assignBackrefs b.resources
          (postprocessCollect { graphql := b.graphql, data := b.data, schemas := b.schemas, resources := b.resources } gl ([], []) (traverseData { graphql := b.graphql, data := b.data, schemas := b.schemas, resources := b.resources } gl)).1 with
      | error e =>
        rw [hres] at hok
        injection hok
      | ok resources1 =>
        rw [hres] at hok
        dsimp only at hok
        cases happ : applyContextUniquePatches hash
            (postprocessCollect { graphql := b.graphql, data := b.data, schemas := b.schemas, resources := b.resources } gl ([], []) (traverseData { graphql := b.graphql, data := b.data, schemas := b.schemas, resources := b.resources } gl)).2 b.schemas b.data with
        | error e =>
          rw [happ] at hok
          injection hok
        | ok pr =>
          obtain ⟨schemas1, data1⟩ := pr
          rw [happ] at hok
          dsimp only at hok
          injection hok with hb'
          rw [← hb']
          have hval := assignBackrefs_mem _ _ _ hres p rd hmem
          have hbr := postprocessCollect_backrefs { graphql := b.graphql, data := b.data, schemas := b.schemas, resources := b.resources } gl p (traverseData { graphql := b.graphql, data := b.data, schemas := b.schemas, resources := b.resources } gl) ([], [])
          rw [hbr] at hval
          simpa [vGet] using hval
    · rw [if_neg hnm] at hok hs0
      rw [hs0] at hok
      dsimp only at hok
      simp only [postChecksumBundle]
      cases hres : assignBackrefs b.resources
          (postprocessCollect { graphql := b.graphql, data := b.data, schemas := schemas0, resources := b.resources } gl ([], []) (traverseData { graphql := b.graphql, data := b.data, schemas := schemas0, resources := b.resources } gl)).1 with
      | error e =>
        rw [hres] at hok
        injection hok
      | ok resources1 =>
        rw [hres] at hok
        dsimp only at hok
        cases happ : applyContextUniquePatches hash
            (postprocessCollect { graphql := b.graphql, data := b.data, schemas := schemas0, resources := b.resources } gl ([], []) (traverseData { graphql := b.graphql, data := b.data, schemas := schemas0, resources := b.resources } gl)).2 schemas0 b.data with
        | error e =>
          rw [happ] at hok
          injection hok
        | ok pr =>
          obtain ⟨schemas1, data1⟩ := pr
          rw [happ] at hok
          dsimp only at hok
          injection hok with hb'
          rw [← hb']
          have hval := assignBackrefs_mem _ _ _ hres p rd hmem
          have hbr := postprocessCollect_backrefs { graphql := b.graphql, data := b.data, schemas := schemas0, resources := b.resources } gl p (traverseData { graphql := b.graphql, data := b.data, schemas := schemas0, resources := b.resources } gl) ([], [])
          rw [hbr] at hval
          simpa [vGet] using hval

def hashW4 : String → String := fun s => s

def docW4 : JSON := .obj [("$schema", .s "/s.yml"), ("res", .s "r1")]

def bW4 : Bundle :=
  { graphql := .null
    data := [("/d.yml", docW4)]
    schemas := [("/s.yml", .obj [("properties",
      .obj [("res", .obj [("$ref", .s RESOURCE_REF)])])])]
    resources := [("r1", .obj []), ("r2", .obj [])] }

def bW4' : Bundle := (postprocessBundle hashW4 bW4 glEmpty none).toOption.getD bW4

theorem C4_witness :
    postprocessBundle hashW4 bW4 glEmpty none = .ok bW4' ∧
    ("r1", JSON.obj []) ∈ bW4.resources ∧
    ("r1", JSON.obj (dInsert [] "backrefs"
      (.arr (backrefsOf glEmpty
        (traverseData (postChecksumBundle bW4 bW4.schemas) glEmpty) "r1")))) ∈
      bW4'.resources :=
  ⟨rfl, List.mem_cons_self _ _,
    C4_backref_assignment hashW4 bW4 bW4' glEmpty none bW4.schemas rfl rfl "r1" []
      (List.mem_cons_self _ _)⟩

/-- A value Python can use inside a dict key: scalars are hashable, lists and
dicts are not. -/
def isHashable : JSON → Bool
  | .obj _ => false
  | .arr _ => false
  | _ => true

/-- `build_unique_constraint_key_from_node` (validator_v2.py lines 227-234):
the `(record type name, field name, value)` triple for a node whose resolved
field is marked `isUnique`. -/
def buildUniqueConstraintKeyFromNode (gl : GraphqlLookup) (node : Node) :
    Except PyErr (Option (JSON × JSON × JSON)) :=
  match node.graphqlType gl with
  | some graphqlType =>
    let graphqlField := node.graphqlField gl
    if pyTruthy graphqlField && pyTruthy (jGet graphqlField "isUnique") then
      match graphqlField with
      | .obj d =>
        if dMem d "name" then
          pure (some (graphqlType.name, dGet d "name", node.data))
        else throw (PyErr.keyError (.s "name"))
      | _ => throw (PyErr.typeError "field is not subscriptable")
    else pure none
  | none => pure none

/-- Python `==` on the `UniqueConstraintKey` named tuple: componentwise. -/
def keyEq (a b : JSON × JSON × JSON) : Bool :=
  pyEq a.1 b.1 && pyEq a.2.1 b.2.1 && pyEq a.2.2 b.2.2

/-- The `defaultdict(list)` append `unique_constraint[key].append(filename)`
(validator_v2.py line 181): extend the first entry whose key compares equal,
or add a new entry at the end. -/
def filesAppend (groups : List ((JSON × JSON × JSON) × List String))
    (k : JSON × JSON × JSON) (f : String) :
    List ((JSON × JSON × JSON) × List String) :=
  match groups with
  | [] => [(k, [f])]
  | (k', fs) :: rest =>
    if keyEq k' k then (k', fs ++ [f]) :: rest else (k', fs) :: filesAppend rest k f

/-- Lookup in the constraint dict under Python key equality. -/
def filesGet (groups : List ((JSON × JSON × JSON) × List String))
    (k : JSON × JSON × JSON) : Option (List String) :=
  match groups with
  | [] => none
  | (k', fs) :: rest => if keyEq k' k then some fs else filesGet rest k

/-- The unique-constraint slice of the traversal loop of `validate_datafiles`
(validator_v2.py lines 157-181): collect each qualifying node's filename under
its key.  Indexing the dict with an unhashable component (a list or dict
value) raises TypeError in Python. -/
def uniqueConstraintFold (gl : GraphqlLookup)
    (acc : List ((JSON × JSON × JSON) × List String)) :
    List Node → Except PyErr (List ((JSON × JSON × JSON) × List String))
  | [] => pure acc
  | node :: rest =>
    match buildUniqueConstraintKeyFromNode gl node with
    | .error e => throw e
    | .ok none => uniqueConstraintFold gl acc rest
    | .ok (some k) =>
      if isHashable k.1 && isHashable k.2.1 && isHashable k.2.2 then
        uniqueConstraintFold gl (filesAppend acc k node.path) rest
      else throw (PyErr.typeError "unhashable type")

/-- One `DUPLICATE_UNIQUE_FIELD` validation result (validator_v2.py lines
196-206), with the fields the claim speaks about. -/
structure DuplicateUniqueFieldResult where
  filename : String
  status : String
  reason : String
  error : String
deriving Repr

/-- The emission loop over the constraint dict (validator_v2.py lines
193-206): one error-status result per group with more than one member,
reported against `sorted(filenames)[0]` (the sort is total, so `headD` equals
the Python indexing on these non-empty lists). -/
def duplicateUniqueFieldResults
    (groups : List ((JSON × JSON × JSON) × List String)) :
    List DuplicateUniqueFieldResult :=
  groups.filterMap fun g =>
    if 1 < g.2.length then
      some { filename := (sortStrs g.2).headD ""
             status := "ERROR"
             reason := "DUPLICATE_UNIQUE_FIELD"
             error := "The field '" ++ pyStr g.1.2.1 ++ "' is repeated: " ++
               String.intercalate ", " (sortStrs g.2) }
    else none

/-- The filenames the claim assigns to key `k`: the paths of exactly the
stream nodes whose unique-constraint key compares equal to `k`, in stream
order. -/
def filesOfKey (gl : GraphqlLookup) (nodes : List Node)
    (k : JSON × JSON × JSON) : List String :=
  nodes.filterMap fun n =>
    match buildUniqueConstraintKeyFromNode gl n with
    | .ok (some kn) => if keyEq kn k then some n.path else none
    | _ => none

theorem charsLt_irrefl (l : List Char) : charsLt l l = false := by
  induction l with
  | nil => rfl
  | cons c cs ih => simp [charsLt, ih]

theorem charsLt_cons_iff (x y : Char) (xs ys : List Char) :
    charsLt (x :: xs) (y :: ys) = true ↔
      x.toNat < y.toNat ∨ (x.toNat = y.toNat ∧ charsLt xs ys = true) := by
  rw [charsLt]
  by_cases h1 : x.toNat < y.toNat <;> by_cases h2 : x.toNat = y.toNat <;> simp [h1, h2]

theorem charsLt_trans (a : List Char) : ∀ b c, charsLt a b = true → charsLt b c = true →
    charsLt a c = true := by
  induction a with
  | nil =>
    intro b c h1 h2
    cases b with
    | nil => simp [charsLt] at h1
    | cons y ys =>
      cases c with
      | nil => simp [charsLt] at h2
      | cons z zs => simp [charsLt]
  | cons x xs ih =>
    intro b c h1 h2
    cases b with
    | nil => simp [charsLt] at h1
    | cons y ys =>
      cases c with
      | nil => simp [charsLt] at h2
      | cons z zs =>
        rw [charsLt_cons_iff] at h1 h2 ⊢
        rcases h1 with h1 | ⟨h1, h1'⟩ <;> rcases h2 with h2 | ⟨h2, h2'⟩
        · exact Or.inl (Nat.lt_trans h1 h2)
        · exact Or.inl (h2 ▸ h1)
        · exact Or.inl (h1 ▸ h2)
        · exact Or.inr ⟨h1.trans h2, ih ys zs h1' h2'⟩

theorem strLtB_irrefl (s : String) : strLtB s s = false := charsLt_irrefl s.data

theorem strLtB_trans {a b c : String} (h1 : strLtB a b = true) (h2 : strLtB b c = true) :
    strLtB a c = true := charsLt_trans a.data b.data c.data h1 h2

theorem insertSorted_ne_nil (x : String) (l : List String) : insertSorted x l ≠ [] := by
  cases l with
  | nil => simp [insertSorted]
  | cons y rest =>
    rw [insertSorted]
    split <;> simp

theorem sortStrs_nil_iff (l : List String) : sortStrs l = [] ↔ l = [] := by
  cases l with
  | nil => simp [sortStrs]
  | cons x rest =>
    simp only [sortStrs, List.foldr_cons]
    constructor
    · intro h
      exact absurd h (insertSorted_ne_nil x _)
    · intro h
      exact absurd h (List.cons_ne_nil x rest)

theorem headD_insertSorted (x : String) (l : List String) (d : String) :
    (insertSorted x l).headD d =
      match l with
      | [] => x
      | y :: _ => if strLtB x y then x else y := by
  cases l with
  | nil => rfl
  | cons y rest =>
    rw [insertSorted]
    split <;> simp [*]

theorem sortStrs_head_mem (l : List String) (hne : l ≠ []) : (sortStrs l).headD "" ∈ l := by
  cases hs : sortStrs l with
  | nil => exact absurd ((sortStrs_nil_iff l).mp hs) hne
  | cons y t =>
    have hy : y ∈ sortStrs l := hs ▸ List.mem_cons_self _ _
    show y ∈ l
    exact (mem_sortStrs y l).mp hy

theorem sortStrs_head_min (l : List String) (f : String) (hf : f ∈ l) :
    strLtB f ((sortStrs l).headD "") = false := by
  induction l with
  | nil => simp at hf
  | cons x rest ih =>
    show strLtB f ((insertSorted x (sortStrs rest)).headD "") = false
    rw [headD_insertSorted]
    cases hsr : sortStrs rest with
    | nil =>
      have hrest : rest = [] := (sortStrs_nil_iff rest).mp hsr
      subst hrest
      rcases List.mem_cons.mp hf with h | h
      · subst h
        exact strLtB_irrefl f
      · simp at h
    | cons y t =>
      show strLtB f (if strLtB x y then x else y) = false
      rcases List.mem_cons.mp hf with h | h
      · subst h
        by_cases hxy : strLtB f y = true
        · rw [if_pos hxy]
          exact strLtB_irrefl f
        · simp only [Bool.not_eq_true] at hxy
          rw [if_neg (by simp [hxy])]
          exact hxy
      · have hfy : strLtB f y = false := by
          have hmin := ih h
          rw [hsr] at hmin
          simpa using hmin
        by_cases hxy : strLtB x y = true
        · rw [if_pos hxy]
          cases hfx : strLtB f x with
          | false => rfl
          | true => exact absurd (strLtB_trans hfx hxy) (by simp [hfy])
        · rw [if_neg hxy]
          exact hfy

/-- Python's hash-equality classes over hashable JSON scalars: None alone,
numbers (booleans count as 0/1), strings. -/
inductive PyKey where
  | none
  | int (n : Int)
  | str (s : String)
deriving DecidableEq, Repr

/-- The equality class of a hashable scalar. -/
def pyKeyOf : JSON → PyKey
  | .null => .none
  | .b x => .int (if x then 1 else 0)
  | .i n => .int n
  | .s v => .str v
  | .arr _ => .none
  | .obj _ => .none

theorem pyEq_eq_pyKey (a b : JSON) (ha : isHashable a = true) (hb : isHashable b = true) :
    pyEq a b = true ↔ pyKeyOf a = pyKeyOf b := by
  cases a with
  | null =>
    cases b with
    | null => simp [pyEq, pyKeyOf]
    | b y => simp [pyEq, pyKeyOf]
    | i n => simp [pyEq, pyKeyOf]
    | s v => simp [pyEq, pyKeyOf]
    | arr l => simp [isHashable] at hb
    | obj d => simp [isHashable] at hb
  | b x =>
    cases b with
    | null => simp [pyEq, pyKeyOf]
    | b y => cases x <;> cases y <;> simp [pyEq, pyKeyOf]
    | i n => simp [pyEq, pyKeyOf, beq_iff_eq]
    | s v => simp [pyEq, pyKeyOf]
    | arr l => simp [isHashable] at hb
    | obj d => simp [isHashable] at hb
  | i m =>
    cases b with
    | null => simp [pyEq, pyKeyOf]
    | b y => simp [pyEq, pyKeyOf, beq_iff_eq]
    | i n => simp [pyEq, pyKeyOf, beq_iff_eq]
    | s v => simp [pyEq, pyKeyOf]
    | arr l => simp [isHashable] at hb
    | obj d => simp [isHashable] at hb
  | s w =>
    cases b with
    | null => simp [pyEq, pyKeyOf]
    | b y => simp [pyEq, pyKeyOf]
    | i n => simp [pyEq, pyKeyOf]
    | s v => simp [pyEq, pyKeyOf, beq_iff_eq]
    | arr l => simp [isHashable] at hb
    | obj d => simp [isHashable] at hb
  | arr l => simp [isHashable] at ha
  | obj d => simp [isHashable] at ha

theorem pyEq_hashable_container (a c : JSON) (ha : isHashable a = true)
    (hc : isHashable c = false) : pyEq a c = false := by
  cases a <;> cases c <;> simp_all [isHashable, pyEq]

theorem pyEq_right_euclid (x y z : JSON) (hx : isHashable x = true)
    (hy : isHashable y = true) (h1 : pyEq x z = true) (h2 : pyEq y z = true) :
    pyEq x y = true := by
  cases hz : isHashable z with
  | false =>
    rw [pyEq_hashable_container x z hx hz] at h1
    exact absurd h1 (by simp)
  | true =>
    rw [pyEq_eq_pyKey x z hx hz] at h1
    rw [pyEq_eq_pyKey y z hy hz] at h2
    rw [pyEq_eq_pyKey x y hx hy]
    exact h1.trans h2.symm

theorem pyEq_hashable_trans (x y z : JSON) (hx : isHashable x = true)
    (hy : isHashable y = true) (h1 : pyEq x y = true) (h2 : pyEq y z = true) :
    pyEq x z = true := by
  cases hz : isHashable z with
  | false =>
    rw [pyEq_hashable_container y z hy hz] at h2
    exact absurd h2 (by simp)
  | true =>
    rw [pyEq_eq_pyKey x y hx hy] at h1
    rw [pyEq_eq_pyKey y z hy hz] at h2
    rw [pyEq_eq_pyKey x z hx hz]
    exact h1.trans h2

/-- All three components of a constraint key are hashable. -/
def keyHashable (k : JSON × JSON × JSON) : Bool :=
  isHashable k.1 && isHashable k.2.1 && isHashable k.2.2

theorem keyEq_parts {a b : JSON × JSON × JSON} (h : keyEq a b = true) :
    pyEq a.1 b.1 = true ∧ pyEq a.2.1 b.2.1 = true ∧ pyEq a.2.2 b.2.2 = true := by
  have h' := h
  simp only [keyEq, Bool.and_eq_true] at h'
  exact ⟨h'.1.1, h'.1.2, h'.2⟩

theorem keyHashable_parts {a : JSON × JSON × JSON} (h : keyHashable a = true) :
    isHashable a.1 = true ∧ isHashable a.2.1 = true ∧ isHashable a.2.2 = true := by
  have h' := h
  simp only [keyHashable, Bool.and_eq_true] at h'
  exact ⟨h'.1.1, h'.1.2, h'.2⟩

theorem keyEq_right_euclid (e n k : JSON × JSON × JSON) (he : keyHashable e = true)
    (hn : keyHashable n = true) (h1 : keyEq e k = true) (h2 : keyEq n k = true) :
    keyEq e n = true := by
  obtain ⟨he1, he2, he3⟩ := keyHashable_parts he
  obtain ⟨hn1, hn2, hn3⟩ := keyHashable_parts hn
  obtain ⟨h11, h12, h13⟩ := keyEq_parts h1
  obtain ⟨h21, h22, h23⟩ := keyEq_parts h2
  simp only [keyEq, Bool.and_eq_true]
  exact ⟨⟨pyEq_right_euclid _ _ _ he1 hn1 h11 h21,
    pyEq_right_euclid _ _ _ he2 hn2 h12 h22⟩,
    pyEq_right_euclid _ _ _ he3 hn3 h13 h23⟩

theorem keyEq_hashable_trans (e n k : JSON × JSON × JSON) (he : keyHashable e = true)
    (hn : keyHashable n = true) (h1 : keyEq e n = true) (h2 : keyEq n k = true) :
    keyEq e k = true := by
  obtain ⟨he1, he2, he3⟩ := keyHashable_parts he
  obtain ⟨hn1, hn2, hn3⟩ := keyHashable_parts hn
  obtain ⟨h11, h12, h13⟩ := keyEq_parts h1
  obtain ⟨h21, h22, h23⟩ := keyEq_parts h2
  simp only [keyEq, Bool.and_eq_true]
  exact ⟨⟨pyEq_hashable_trans _ _ _ he1 hn1 h11 h21,
    pyEq_hashable_trans _ _ _ he2 hn2 h12 h22⟩,
    pyEq_hashable_trans _ _ _ he3 hn3 h13 h23⟩

theorem keyEq_hashable_symm (a b : JSON × JSON × JSON) (ha : keyHashable a = true)
    (hb : keyHashable b = true) (h : keyEq a b = true) : keyEq b a = true := by
  obtain ⟨ha1, ha2, ha3⟩ := keyHashable_parts ha
  obtain ⟨hb1, hb2, hb3⟩ := keyHashable_parts hb
  obtain ⟨h1, h2, h3⟩ := keyEq_parts h
  rw [pyEq_eq_pyKey _ _ ha1 hb1] at h1
  rw [pyEq_eq_pyKey _ _ ha2 hb2] at h2
  rw [pyEq_eq_pyKey _ _ ha3 hb3] at h3
  simp only [keyEq, Bool.and_eq_true]
  rw [pyEq_eq_pyKey _ _ hb1 ha1, pyEq_eq_pyKey _ _ hb2 ha2, pyEq_eq_pyKey _ _ hb3 ha3]
  exact ⟨⟨h1.symm, h2.symm⟩, h3.symm⟩

theorem filesAppend_keys_hashable (groups : List ((JSON × JSON × JSON) × List String))
    (kn : JSON × JSON × JSON) (f : String)
    (hkeys : ∀ g ∈ groups, keyHashable g.1 = true) (hkn : keyHashable kn = true) :
    ∀ g ∈ filesAppend groups kn f, keyHashable g.1 = true := by
  induction groups with
  | nil =>
    intro g hg
    simp [filesAppend] at hg
    rw [hg]
    exact hkn
  | cons e rest ih =>
    obtain ⟨ke, fs⟩ := e
    intro g hg
    rw [filesAppend] at hg
    by_cases hke : keyEq ke kn = true
    · rw [if_pos hke] at hg
      rcases List.mem_cons.mp hg with h | h
      · rw [h]
        exact hkeys (ke, fs) (List.mem_cons_self _ _)
      · exact hkeys _ (List.mem_cons_of_mem _ h)
    · rw [if_neg hke] at hg
      rcases List.mem_cons.mp hg with h | h
      · rw [h]
        exact hkeys _ (List.mem_cons_self _ _)
      · exact ih (fun g' hg' => hkeys g' (List.mem_cons_of_mem _ hg')) g h

theorem filesGet_filesAppend (groups : List ((JSON × JSON × JSON) × List String))
    (kn : JSON × JSON × JSON) (f : String) (k : JSON × JSON × JSON)
    (hkeys : ∀ g ∈ groups, keyHashable g.1 = true) (hkn : keyHashable kn = true) :
    (filesGet (filesAppend groups kn f) k).getD [] =
      (filesGet groups k).getD [] ++ (if keyEq kn k then [f] else []) := by
  induction groups with
  | nil =>
    rw [filesAppend, filesGet, filesGet]
    by_cases h : keyEq kn k = true <;> simp [filesGet, h]
  | cons e rest ih =>
    obtain ⟨ke, fs⟩ := e
    have hke : keyHashable ke = true := hkeys _ (List.mem_cons_self _ _)
    have hrest : ∀ g ∈ rest, keyHashable g.1 = true :=
      fun g hg => hkeys g (List.mem_cons_of_mem _ hg)
    by_cases happ : keyEq ke kn = true
    · by_cases hget : keyEq ke k = true
      · have hsym := keyEq_hashable_symm ke kn hke hkn happ
        have hknk := keyEq_hashable_trans kn ke k hkn hke hsym hget
        simp [filesAppend, happ, filesGet, hget, hknk]
      · have hknk : keyEq kn k = false := by
          cases hc : keyEq kn k with
          | false => rfl
          | true =>
            exact absurd (keyEq_hashable_trans ke kn k hke hkn happ hc) (by simp [hget])
        simp [filesAppend, happ, filesGet, hget, hknk]
    · by_cases hget : keyEq ke k = true
      · have hknk : keyEq kn k = false := by
          cases hc : keyEq kn k with
          | false => rfl
          | true =>
            exact absurd (keyEq_right_euclid ke kn k hke hkn hget hc) (by simp [happ])
        simp [filesAppend, happ, filesGet, hget, hknk]
      · simp [filesAppend, happ, filesGet, hget, ih hrest]

theorem uniqueConstraintFold_get (gl : GraphqlLookup) (k : JSON × JSON × JSON)
    (nodes : List Node) :
    ∀ acc groups, (∀ g ∈ acc, keyHashable g.1 = true) →
      uniqueConstraintFold gl acc nodes = .ok groups →
      (filesGet groups k).getD [] = (filesGet acc k).getD [] ++ filesOfKey gl nodes k := by
  induction nodes with
  | nil =>
    intro acc groups hacc hok
    injection hok with h
    rw [← h]
    simp [filesOfKey]
  | cons n rest ih =>
    intro acc groups hacc hok
    rw [uniqueConstraintFold] at hok
    cases hkey : buildUniqueConstraintKeyFromNode gl n with
    | error e =>
      rw [hkey] at hok
      injection hok
    | ok ko =>
      rw [hkey] at hok
      cases ko with
      | none =>
        dsimp only at hok
        rw [ih acc groups hacc hok]
        simp [filesOfKey, List.filterMap_cons, hkey]
      | some kn =>
        dsimp only at hok
        by_cases hh : (isHashable kn.1 && isHashable kn.2.1 && isHashable kn.2.2) = true
        · rw [if_pos hh] at hok
          have hknh : keyHashable kn = true := hh
          have hacc' := filesAppend_keys_hashable acc kn n.path hacc hknh
          rw [ih (filesAppend acc kn n.path) groups hacc' hok]
          rw [filesGet_filesAppend acc kn n.path k hacc hknh]
          rw [List.append_assoc]
          congr 1
          by_cases hx : keyEq kn k = true <;>
            simp [filesOfKey, List.filterMap_cons, hkey, hx]
        · rw [if_neg hh] at hok
          injection hok

theorem duplicateUniqueFieldResults_eq
    (groups : List ((JSON × JSON × JSON) × List String)) :
    duplicateUniqueFieldResults groups =
      (groups.filter fun g => decide (1 < g.2.length)).map fun g =>
        { filename := (sortStrs g.2).headD "", status := "ERROR",
          reason := "DUPLICATE_UNIQUE_FIELD",
          error := "The field '" ++ pyStr g.1.2.1 ++ "' is repeated: " ++
            String.intercalate ", " (sortStrs g.2) } := by
  induction groups with
  | nil => rfl
  | cons g rest ih =>
    rw [duplicateUniqueFieldResults] at ih ⊢
    rw [List.filterMap_cons, List.filter_cons]
    by_cases h : 1 < g.2.length
    · rw [if_pos h, if_pos (by simp [h])]
      rw [List.map_cons, ih]
    · rw [if_neg h, if_neg (by simp [h])]
      exact ih

/-- C7: on a completed collection pass, the unique-field constraint dict groups
the stream's qualifying nodes by their `(record type name, field name, value)`
key under Python equality across the entire bundle, and the emission pass
produces exactly one `DUPLICATE_UNIQUE_FIELD` error-status result per group
with more than one member, reported against the lexicographically-first
filename of the group. -/
theorem C7_unique_field_grouping (gl : GraphqlLookup) (b : Bundle)
    (groups : List ((JSON × JSON × JSON) × List String))
    (hfold : uniqueConstraintFold gl [] (traverseData b gl) = .ok groups) :
    (∀ k : JSON × JSON × JSON,
      (filesGet groups k).getD [] = filesOfKey gl (traverseData b gl) k) ∧
    (duplicateUniqueFieldResults groups =
      (groups.filter fun g => decide (1 < g.2.length)).map fun g =>
        { filename := (sortStrs g.2).headD "", status := "ERROR",
          reason := "DUPLICATE_UNIQUE_FIELD",
          error := "The field '" ++ pyStr g.1.2.1 ++ "' is repeated: " ++
            String.intercalate ", " (sortStrs g.2) }) ∧
    (∀ g ∈ groups, 1 < g.2.length →
      (sortStrs g.2).headD "" ∈ g.2 ∧
        ∀ f ∈ g.2, strLtB f ((sortStrs g.2).headD "") = false) := by
  refine ⟨?_, duplicateUniqueFieldResults_eq groups, ?_⟩
  · intro k
    have h := uniqueConstraintFold_get gl k (traverseData b gl) [] groups
      (by intro g hg; simp at hg) hfold
    simpa [filesGet] using h
  · intro g hg hlen
    have hne : g.2 ≠ [] := by
      intro h
      rw [h] at hlen
      simp at hlen
    exact ⟨sortStrs_head_mem g.2 hne, fun f hf => sortStrs_head_min g.2 f hf⟩

def confW7 : JSON := .obj [("name", .s "T"), ("datafile", .s "/t.yml"),
  ("fields", .arr [.obj [("name", .s "email"), ("type", .s "string"),
    ("isUnique", .b true)]])]

def docW7a : JSON := .obj [("$schema", .s "/t.yml"), ("email", .s "a@x")]

def docW7b : JSON := .obj [("$schema", .s "/t.yml"), ("email", .s "a@x")]

def bW7 : Bundle :=
  { graphql := .arr [confW7]
    data := [("/d2.yml", docW7a), ("/d1.yml", docW7b)]
    schemas := [], resources := [] }

def glW7 : GraphqlLookup := (bW7.graphqlLookup).toOption.getD glEmpty

def groupsW7 : List ((JSON × JSON × JSON) × List String) :=
  (uniqueConstraintFold glW7 [] (traverseData bW7 glW7)).toOption.getD []

theorem C7_witness :
    uniqueConstraintFold glW7 [] (traverseData bW7 glW7) = .ok groupsW7 ∧
    (filesGet groupsW7 (.s "T", .s "email", .s "a@x")).getD [] =
      filesOfKey glW7 (traverseData bW7 glW7) (.s "T", .s "email", .s "a@x") :=
  ⟨rfl, (C7_unique_field_grouping glW7 bW7 groupsW7 rfl).1 (.s "T", .s "email", .s "a@x")⟩

/-- One validation result of validator_v2.py (`ValidationResult` with its
nested `_ValidationResult`, lines 38-49, flattened); the `NotRequired` fields
are null when absent. -/
structure VResult where
  filename : String
  kind : String
  summary : String
  status : String
  schemaUrl : JSON := .null
  reason : JSON := .null
  error : JSON := .null
deriving Repr

/-- The external libraries validator_v2.py calls, as total oracles:
`Draft6Validator.check_schema` (some = the caught SchemaError message),
`Draft6Validator(schema).validate(x)` (some = the caught ValidationError
message), a successful `requests` fetch of an http(s) meta-schema, and
`load_yaml` (none = the caught YAMLError). -/
structure ValidationOracles where
  checkSchema : JSON → Option String
  validateWith : JSON → JSON → Option String
  fetchHttp : String → JSON
  loadYaml : JSON → Option JSON

/-- Python `str.startswith`, structurally on the character lists. -/
def charsStartWith : List Char → List Char → Bool
  | _, [] => true
  | [], _ :: _ => false
  | c :: cs, d :: ds => (c == d) && charsStartWith cs ds

/-- Python `s.startswith(pre)`. -/
def strStartsWith (s pre : String) : Bool := charsStartWith s.data pre.data

/-- `fetch_schema` (validator_v2.py lines 74-80): non-http URLs raise
`MissingSchemaFileError`; a non-string URL has no `startswith`. -/
def fetchSchema (oracles : ValidationOracles) (schemaUrl : JSON) : Except PyErr JSON :=
  match schemaUrl with
  | .s u =>
    if strStartsWith u "http" then pure (oracles.fetchHttp u)
    else throw (.missingSchemaFileError (.s u))
  | _ => throw (.attributeError "startswith")

/-- `validate_schema` (validator_v2.py lines 87-146). -/
def validateSchema (oracles : ValidationOracles) (b : Bundle) (schemaPath : String)
    (schema : JSON) : Except PyErr VResult := do
  let metaSchemaUrl := jGet schema "$schema"
  if isNull metaSchemaUrl then
    pure { filename := schemaPath, kind := "SCHEMA", status := "ERROR",
           reason := .s "MISSING_SCHEMA_URL", summary := "ERROR: " ++ schemaPath,
           error := .s ("Missing schema URL in file " ++ schemaPath) }
  else if isHashable metaSchemaUrl then do
    let found := dGetByVal b.schemas metaSchemaUrl
    let metaSchema ←
      if pyTruthy found then pure found else fetchSchema oracles metaSchemaUrl
    match oracles.checkSchema schema with
    | some e =>
      pure { filename := schemaPath, kind := "SCHEMA", status := "ERROR",
             reason := .s "SCHEMA_ERROR", summary := "ERROR: " ++ schemaPath,
             error := .s e, schemaUrl := metaSchemaUrl }
    | none =>
      match oracles.validateWith metaSchema schema with
      | some e =>
        pure { filename := schemaPath, kind := "SCHEMA", status := "ERROR",
               reason := .s "VALIDATION_ERROR", summary := "ERROR: " ++ schemaPath,
               error := .s e, schemaUrl := metaSchemaUrl }
      | none =>
        pure { filename := schemaPath, kind := "SCHEMA", status := "OK",
               summary := "OK: " ++ schemaPath ++ " (" ++ pyStr metaSchemaUrl ++ ")",
               schemaUrl := metaSchemaUrl }
  else throw (.typeError "unhashable type")

/-- `validate_schemas` (validator_v2.py lines 83-85) over the given schema
entries, in order. -/
def validateSchemas (oracles : ValidationOracles) (b : Bundle) :
    Dict → Except PyErr (List VResult)
  | [] => pure []
  | (p, s) :: rest => do
    let r ← validateSchema oracles b p s
    let rs ← validateSchemas oracles b rest
    pure (r :: rs)

/-- `validate_file` (validator_v2.py lines 346-410). -/
def validateFile (oracles : ValidationOracles) (b : Bundle) (filename : String)
    (data : JSON) : Except PyErr VResult := do
  let schemaUrl := jGet data "$schema"
  if isNull schemaUrl then
    pure { filename := filename, kind := "FILE", status := "ERROR",
           reason := .s "MISSING_SCHEMA_URL", summary := "ERROR: " ++ filename,
           error := .s ("Missing schema URL in file " ++ filename) }
  else
    match schemaUrl with
    | .s u =>
      let normalized :=
        if !strStartsWith u "http" && !strStartsWith u "/" then "/" ++ u else u
      let schema := dGet b.schemas normalized
      if isNull schema then
        pure { filename := filename, kind := "FILE", status := "ERROR",
               reason := .s "SCHEMA_NOT_FOUND", summary := "ERROR: " ++ filename,
               error := .s ("Schema " ++ normalized ++ " not found in the file " ++ filename),
               schemaUrl := .s normalized }
      else
        match oracles.validateWith schema data with
        | some e =>
          pure { filename := filename, kind := "FILE", status := "ERROR",
                 reason := .s "VALIDATION_ERROR", summary := "ERROR: " ++ filename,
                 error := .s e, schemaUrl := .s u }
        | none =>
          pure { filename := filename, kind := "FILE", status := "OK",
                 summary := "OK: " ++ filename ++ " (" ++ u ++ ")", schemaUrl := .s u }
    | _ => throw (.attributeError "startswith")

/-- `validate_ref` (validator_v2.py lines 285-343).  The stream only yields
leaves (scalar data), so `bundle.data.get(ref)` is an ordinary string-keyed
lookup. -/
def validateRef (oracles : ValidationOracles) (b : Bundle) (node : Node) : VResult :=
  let filename := node.path
  let ref := node.data
  let refData := dGetByVal b.data ref
  let okSchemaUrl := if pyTruthy node.schemaPath then pyStr node.schemaPath else ""
  let okResult : VResult :=
    { filename := filename, kind := "REF", status := "OK",
      summary := "OK: " ++ filename ++ " (" ++ pyStr ref ++ ") (" ++ okSchemaUrl ++ ")",
      schemaUrl := .s okSchemaUrl }
  if isNull refData then
    { filename := filename, kind := "REF", status := "ERROR",
      summary := "ERROR: " ++ filename, reason := .s "FILE_NOT_FOUND",
      error := .s ("Reference to file " ++ pyStr ref ++ " in file " ++ filename ++
        " not found") }
  else
    let refDataSchema := jGet refData "$schema"
    let expected := jGet node.schema "$schemaRef"
    if pyTruthy refDataSchema && pyTruthy node.schema && pyTruthy expected then
      match expected with
      | .s es =>
        if !pyEq (.s es) refDataSchema then
          { filename := filename, kind := "REF", status := "ERROR",
            summary := "ERROR: " ++ filename, reason := .s "INCORRECT_SCHEMA",
            error := .s ("incorrect schema: got `" ++ pyStr refDataSchema ++
              "`, expecting `" ++ es ++ "`") }
        else okResult
      | _ =>
        match oracles.validateWith expected refData with
        | some e =>
          { filename := filename, kind := "REF", status := "ERROR",
            summary := "ERROR: " ++ filename, reason := .s "SCHEMA_REF_VALIDATION_ERROR",
            error := .s e }
        | none => okResult
    else okResult

/-- `build_context_unique_constraint_key` (validator_v2.py lines 235-249). -/
def buildContextUniqueConstraintKey (filename : String) (jsonpaths : List JSONPath)
    (identifier : JSON) (graphqlType : GraphqlTypeV2) :
    String × String × String × JSON :=
  (filename, build_jsonpath jsonpaths,
   String.intercalate ", " (sortStrs graphqlType.contextUniqueFieldNames), identifier)

/-- `build_context_unique_constraint_key_from_node` (validator_v2.py lines
252-282). -/
def buildContextUniqueConstraintKeyFromNode (b : Bundle) (gl : GraphqlLookup)
    (node : Node) (field : String) : Option (String × String × String × JSON) :=
  if field = "$ref" then
    let data := node.resolveRef b
    if pyTruthy data then
      let identifier := jGet data "__identifier"
      if pyTruthy identifier then
        let schemaPath := jGet data "$schema"
        if pyTruthy schemaPath then
          match gl.getBySchema schemaPath with
          | some graphqlType =>
            some (buildContextUniqueConstraintKey node.path
              node.jsonpaths.dropLast.dropLast identifier graphqlType)
          | none => none
        else none
      else none
    else none
  else if field = "__identifier" then
    match node.graphqlType gl with
    | some graphqlType =>
      some (buildContextUniqueConstraintKey node.path
        node.jsonpaths.dropLast.dropLast node.data graphqlType)
    | none => none
  else none

/-- Python `==` on `ContextUniqueConstraintKey` tuples. -/
def ctxKeyEq (a b : String × String × String × JSON) : Bool :=
  (a.1 == b.1) && (a.2.1 == b.2.1) && (a.2.2.1 == b.2.2.1) && pyEq a.2.2.2 b.2.2.2

/-- `context_unique_constraint[key].append(index)` (validator_v2.py lines
188-191). -/
def idxAppend (groups : List ((String × String × String × JSON) × List Nat))
    (k : String × String × String × JSON) (i : Nat) :
    List ((String × String × String × JSON) × List Nat) :=
  match groups with
  | [] => [(k, [i])]
  | (k', xs) :: rest =>
    if ctxKeyEq k' k then (k', xs ++ [i]) :: rest else (k', xs) :: idxAppend rest k i

/-- The per-node body of the traversal loop of `validate_datafiles`
(validator_v2.py lines 157-191): the resource-existence yield, the `$ref`
yield, and the two constraint-dict appends. -/
def datafilesNodeStep (oracles : ValidationOracles) (b : Bundle) (gl : GraphqlLookup)
    (acc : List VResult × List ((JSON × JSON × JSON) × List String)
      × List ((String × String × String × JSON) × List Nat)) (node : Node) :
    Except PyErr (List VResult × List ((JSON × JSON × JSON) × List String)
      × List ((String × String × String × JSON) × List Nat)) := do
  let rs1 :=
    match node.data with
    | .s v =>
      if node.isResourceRef && !dMem b.resources v then
        let r : VResult :=
          { filename := node.path, kind := "REF", status := "ERROR",
            summary := "ERROR: " ++ node.path, reason := .s "RESOURCE_FILE_NOT_FOUND",
            error := .s ("Resource file " ++ v ++ " not found in file " ++ node.path),
            schemaUrl := .s (if pyTruthy node.schemaPath then pyStr node.schemaPath else "") }
        acc.1 ++ [r]
      else acc.1
    | _ => acc.1
  let rs2 :=
    match node.jsonpaths.getLast? with
    | some (.field "$ref") => rs1 ++ [validateRef oracles b node]
    | _ => rs1
  let ug ←
    match buildUniqueConstraintKeyFromNode gl node with
    | .error e => throw e
    | .ok none => pure acc.2.1
    | .ok (some k) =>
      if isHashable k.1 && isHashable k.2.1 && isHashable k.2.2 then
        pure (filesAppend acc.2.1 k node.path)
      else throw (.typeError "unhashable type")
  let cg ←
    match node.jsonpaths.reverse with
    | .field f :: .index i :: _ =>
      match buildContextUniqueConstraintKeyFromNode b gl node f with
      | some ck =>
        if isHashable ck.2.2.2 then pure (idxAppend acc.2.2 ck i)
        else throw (.typeError "unhashable type")
      | none => pure acc.2.2
    | _ => pure acc.2.2
  pure (rs2, ug, cg)

/-- The traversal loop of `validate_datafiles`, over the stream in order. -/
def datafilesTraverseFold (oracles : ValidationOracles) (b : Bundle) (gl : GraphqlLookup)
    (acc : List VResult × List ((JSON × JSON × JSON) × List String)
      × List ((String × String × String × JSON) × List Nat)) :
    List Node →
      Except PyErr (List VResult × List ((JSON × JSON × JSON) × List String)
        × List ((String × String × String × JSON) × List Nat))
  | [] => pure acc
  | n :: rest => do
    let acc' ← datafilesNodeStep oracles b gl acc n
    datafilesTraverseFold oracles b gl acc' rest

/-- The `DUPLICATE_UNIQUE_FIELD` results as full validation results
(validator_v2.py lines 193-206). -/
def dupUniqueVResults (ug : List ((JSON × JSON × JSON) × List String)) : List VResult :=
  (duplicateUniqueFieldResults ug).map fun r =>
    { filename := r.filename, kind := "UNIQUE", status := r.status,
      summary := "ERROR: " ++ r.filename, reason := .s r.reason, error := .s r.error }

/-- The `DUPLICATE_CONTEXT_UNIQUE_FIELD` emission loop (validator_v2.py lines
208-225). -/
def dupContextUniqueVResults
    (cg : List ((String × String × String × JSON) × List Nat)) : List VResult :=
  cg.filterMap fun g =>
    if 1 < g.2.length then
      some { filename := g.1.1, kind := "UNIQUE", status := "ERROR",
             summary := "ERROR: " ++ g.1.1, reason := .s "DUPLICATE_CONTEXT_UNIQUE_FIELD",
             error := .s ("Context uniqueness error, file: " ++ g.1.1 ++ ", fields: " ++
               g.1.2.2.1 ++ ", duplicates: " ++
               String.intercalate ", " (g.2.map fun i => g.1.2.1 ++ "/" ++ toString i)) }
    else none

/-- The first loop of `validate_datafiles` (lines 149-150): one
`validate_file` result per datafile, in order. -/
def validateFilesFold (oracles : ValidationOracles) (b : Bundle) :
    Dict → Except PyErr (List VResult)
  | [] => pure []
  | (p, d) :: rest => do
    let r ← validateFile oracles b p d
    let rs ← validateFilesFold oracles b rest
    pure (r :: rs)

/-- `validate_datafiles` (validator_v2.py lines 148-225). -/
def validateDatafiles (oracles : ValidationOracles) (b : Bundle) (gl : GraphqlLookup) :
    Except PyErr (List VResult) := do
  let fileResults ← validateFilesFold oracles b b.data
  let (rs, ug, cg) ← datafilesTraverseFold oracles b gl ([], [], []) (traverseData b gl)
  pure (fileResults ++ rs ++ dupUniqueVResults ug ++ dupContextUniqueVResults cg)

/-- `validate_resource` (validator_v2.py lines 418-447): indexing `$schema`
and `content` raises KeyError when absent. -/
def validateResource (oracles : ValidationOracles) (b : Bundle) (path : String)
    (resource : JSON) : Except PyErr VResult := do
  match resource with
  | .obj rd =>
    if !dMem rd "$schema" then throw (.keyError (.s "$schema"))
    else if isNull (dGet rd "$schema") then
      pure { filename := path, kind := "NONE", status := "OK",
             summary := "OK: " ++ path ++ " ()", schemaUrl := .s "" }
    else if !dMem rd "content" then throw (.keyError (.s "content"))
    else
      match oracles.loadYaml (dGet rd "content") with
      | none =>
        pure { filename := path, kind := "NONE", status := "OK",
               summary := "OK: " ++ path ++ " ()", schemaUrl := .s "" }
      | some data => validateFile oracles b path data
  | _ => throw (.typeError "resource is not subscriptable")

/-- `validate_resources` (validator_v2.py lines 412-415) over the given
resource entries, in order. -/
def validateResourcesFold (oracles : ValidationOracles) (b : Bundle) :
    Dict → Except PyErr (List VResult)
  | [] => pure []
  | (p, r) :: rest => do
    let v ← validateResource oracles b p r
    let vs ← validateResourcesFold oracles b rest
    pure (v :: vs)

/-- `validate_graphql` (validator_v2.py lines 450-456). -/
def validateGraphql (oracles : ValidationOracles) (b : Bundle) :
    Except PyErr (List VResult) :=
  match b.graphql with
  | .obj _ => do
    let r ← validateFile oracles b "graphql-schemas/schema.yml" b.graphql
    pure [r]
  | _ => pure []

/-- `validate_bundle` (validator_v2.py lines 458-468): `list(itertools.chain
(...))` forces the four stages in order, so an exception in an earlier stage
propagates before a later stage runs. -/
def validateBundle (oracles : ValidationOracles) (b : Bundle) (gl : GraphqlLookup) :
    Except PyErr (List VResult) := do
  let s ← validateSchemas oracles b b.schemas
  let d ← validateDatafiles oracles b gl
  let r ← validateResourcesFold oracles b b.resources
  let g ← validateGraphql oracles b
  pure (s ++ d ++ r ++ g)

def oraclesC1 : ValidationOracles :=
  { checkSchema := fun _ => none, validateWith := fun _ _ => none,
    fetchHttp := fun _ => .obj [], loadYaml := fun _ => none }

def bC1 : Bundle :=
  { graphql := .null, data := []
    schemas := [("/s.yml", .obj [("$schema", .s "/missing-meta.json")])]
    resources := [] }

/-- C1 (counterexample): bundle `bC1` has a single schema document whose
meta-schema URL `/missing-meta.json` is not in the schema index and is not an
http URL, so `fetch_schema` raises `MissingSchemaFileError` and
`validate_bundle` propagates it instead of returning a list — with every
library oracle benign, so the exception comes from validator_v2.py itself. -/
theorem C1_counterexample :
    validateBundle oraclesC1 bC1 glEmpty =
      .error (.missingSchemaFileError (.s "/missing-meta.json")) := rfl

theorem validateSchemas_append (oracles : ValidationOracles) (b : Bundle)
    (l1 : Dict) : ∀ (l2 : Dict) (rs : List VResult) (e : PyErr),
    validateSchemas oracles b l1 = .ok rs →
    validateSchemas oracles b l2 = .error e →
    validateSchemas oracles b (l1 ++ l2) = .error e := by
  induction l1 with
  | nil =>
    intro l2 rs e h1 h2
    simpa using h2
  | cons qt rest ih =>
    intro l2 rs e h1 h2
    obtain ⟨q, t⟩ := qt
    rw [validateSchemas] at h1
    simp only [bind, Except.bind] at h1
    cases hv : validateSchema oracles b q t with
    | error e' =>
      rw [hv] at h1
      injection h1
    | ok r0 =>
      rw [hv] at h1
      dsimp only at h1
      cases hrest : validateSchemas oracles b rest with
      | error e' =>
        rw [hrest] at h1
        injection h1
      | ok rs0 =>
        show validateSchemas oracles b ((q, t) :: (rest ++ l2)) = .error e
        rw [validateSchemas]
        simp only [bind, Except.bind]
        rw [hv]
        dsimp only
        rw [ih l2 rs0 e hrest h2]

/-- Helper: a schema document whose meta-schema URL is a string resolving to
nothing truthy in the bundle's schema index and not starting with `http`
makes `fetch_schema` raise `MissingSchemaFileError`, which `validate_bundle`
propagates (the schema documents before it complete without raising). -/
theorem validateBundle_missing_meta_schema_raises (oracles : ValidationOracles)
    (b : Bundle) (gl : GraphqlLookup) (pre post : Dict) (p : String) (s : JSON)
    (u : String) (rs : List VResult)
    (hsplit : b.schemas = pre ++ (p, s) :: post)
    (hpre : validateSchemas oracles b pre = .ok rs)
    (hmeta : jGet s "$schema" = .s u)
    (hnotfound : pyTruthy (dGet b.schemas u) = false)
    (hnothttp : strStartsWith u "http" = false) :
    validateBundle oracles b gl = .error (.missingSchemaFileError (.s u)) := by
  have h1 : validateSchema oracles b p s = .error (.missingSchemaFileError (.s u)) := by
    simp only [validateSchema, hmeta, isNull, isHashable, dGetByVal, hnotfound,
      fetchSchema, hnothttp, bind, Except.bind, Bool.false_eq_true, if_false,
      Bool.true_eq_false, ite_false, ite_true]
  have h2 : validateSchemas oracles b ((p, s) :: post) =
      .error (.missingSchemaFileError (.s u)) := by
    rw [validateSchemas]
    simp only [bind, Except.bind]
    rw [h1]
  have hall := validateSchemas_append oracles b pre ((p, s) :: post) rs
    (.missingSchemaFileError (.s u)) hpre h2
  rw [validateBundle]
  simp only [bind, Except.bind]
  rw [hsplit, hall]

/-- C1 (amended): `validate_bundle` does not satisfy the never-raises,
all-failures-as-error-results contract in two ways.  It can raise: whenever
some schema document declares a meta-schema URL that is a string resolving to
nothing truthy in the bundle's schema index and not starting with `http` (and
the schema documents before it complete without raising), `fetch_schema`
raises `MissingSchemaFileError` and `validate_bundle` propagates the
exception to its caller instead of returning a list.  And an unparsable
resource is not among the failures expressed as error-status results:
`validate_resource` catches the `YAMLError` and returns an OK-status result
for a resource with a non-null `$schema` whose content fails to parse. -/
theorem C1_amended_error_reporting_limits :
    (∀ (oracles : ValidationOracles) (b : Bundle) (gl : GraphqlLookup)
       (pre post : Dict) (p : String) (s : JSON) (u : String) (rs : List VResult),
       b.schemas = pre ++ (p, s) :: post →
       validateSchemas oracles b pre = .ok rs →
       jGet s "$schema" = .s u →
       pyTruthy (dGet b.schemas u) = false →
       strStartsWith u "http" = false →
       validateBundle oracles b gl = .error (.missingSchemaFileError (.s u))) ∧
    (∀ (oracles : ValidationOracles) (b : Bundle) (path : String) (rd : Dict),
       dMem rd "$schema" = true →
       isNull (dGet rd "$schema") = false →
       dMem rd "content" = true →
       oracles.loadYaml (dGet rd "content") = none →
       validateResource oracles b path (.obj rd) =
         .ok { filename := path, kind := "NONE", status := "OK",
               summary := "OK: " ++ path ++ " ()", schemaUrl := .s "" }) := by
  constructor
  · intro oracles b gl pre post p s u rs hsplit hpre hmeta hnotfound hnothttp
    exact validateBundle_missing_meta_schema_raises oracles b gl pre post p s u rs
      hsplit hpre hmeta hnotfound hnothttp
  · intro oracles b path rd h1 h2 h3 h4
    simp only [validateResource, h1, h2, h3, h4, Bool.not_true, Bool.false_eq_true,
      if_false, ite_false, ite_true]
    rfl

theorem C1_witness :
    validateBundle oraclesC1 bC1 glEmpty =
      .error (.missingSchemaFileError (.s "/missing-meta.json")) ∧
    validateResource oraclesC1 bC1 "/r.yml"
      (.obj [("$schema", .s "/s.yml"), ("content", .s "not: [valid")]) =
      .ok { filename := "/r.yml", kind := "NONE", status := "OK",
            summary := "OK: " ++ "/r.yml" ++ " ()", schemaUrl := .s "" } :=
  ⟨C1_amended_error_reporting_limits.1 oraclesC1 bC1 glEmpty [] []
     "/s.yml" (.obj [("$schema", .s "/missing-meta.json")]) "/missing-meta.json" []
     rfl rfl rfl rfl rfl,
   C1_amended_error_reporting_limits.2 oraclesC1 bC1 "/r.yml"
     [("$schema", .s "/s.yml"), ("content", .s "not: [valid")] rfl rfl rfl rfl⟩

def hashC5 : String → String := fun s => s

def confT5 : JSON := .obj [("name", .s "T"), ("datafile", .s "/t.yml"),
  ("fields", .arr [.obj [("name", .s "lst"), ("type", .s "Item")]])]

def confItem5 : JSON := .obj [("name", .s "Item"),
  ("fields", .arr [.obj [("name", .s "name"), ("type", .s "string"),
      ("isContextUnique", .b true)],
    .obj [("name", .s "__identifier"), ("type", .s "string"),
      ("isContextUnique", .b true)]])]

def docC5 : JSON := .obj [("$schema", .s "/t.yml"), ("lst", .arr [.obj [("name", .s "a")]])]

def schemaC5 : JSON := .obj [("properties", .obj [
  ("lst", .obj [("items",
    .obj [("properties", .obj [("name", .obj [("type", .s "string")])])])])])]

def bC5 : Bundle :=
  { graphql := .arr [confT5, confItem5]
    data := [("/d.yml", docC5)]
    schemas := [("/t.yml", schemaC5)]
    resources := [] }

def glC5 : GraphqlLookup := (bC5.graphqlLookup).toOption.getD glEmpty

def bC5x : Bundle := (postprocessBundle hashC5 bC5 glC5 none).toOption.getD bC5

def bC5y : Bundle := (postprocessBundle hashC5 bC5x glC5 none).toOption.getD bC5

/-- C5 (counterexample): in bundle `bC5` the catalog declares a context-unique
field with the reserved name `__identifier` on the array item type.  The
first postprocessor run computes the identifier of `lst[0]` over the single
discovered prop `name` and writes `__identifier = "a"`; the second run
re-traverses the patched data, the injected `__identifier` leaf joins the
same context-unique group, and the identifier is recomputed over both props,
yielding `"aa"` — the bundle state after two runs differs from the state
after one. -/
theorem C5_counterexample :
    postprocessBundle hashC5 bC5 glC5 none = .ok bC5x ∧
    postprocessBundle hashC5 bC5x glC5 none = .ok bC5y ∧
    jReadAt (dGet bC5x.data "/d.yml")
      [.field "lst", .index 0, .field "__identifier"] = .s "a" ∧
    jReadAt (dGet bC5y.data "/d.yml")
      [.field "lst", .index 0, .field "__identifier"] = .s "aa" ∧
    bC5y.data ≠ bC5x.data := by
  refine ⟨rfl, rfl, rfl, rfl, ?_⟩
  intro h
  have h2 : jReadAt (dGet bC5y.data "/d.yml")
      [.field "lst", .index 0, .field "__identifier"] = .s "aa" := rfl
  rw [h] at h2
  have h1 : jReadAt (dGet bC5x.data "/d.yml")
      [.field "lst", .index 0, .field "__identifier"] = .s "a" := rfl
  rw [h1] at h2
  injection h2 with h3
  exact absurd h3 (by decide)

theorem dMem_dModify (d : Dict) (k : String) (f : JSON → JSON) (k' : String) :
    dMem (dModify d k f) k' = dMem d k' := by
  induction d with
  | nil => rfl
  | cons e rest ih =>
    obtain ⟨ke, v⟩ := e
    by_cases h : ke = k <;> simp [dModify, dMem, h, ih]

theorem dModify_dModify (d : Dict) (k : String) (f g : JSON → JSON) :
    dModify (dModify d k f) k g = dModify d k fun v => g (f v) := by
  induction d with
  | nil => rfl
  | cons e rest ih =>
    obtain ⟨ke, v⟩ := e
    by_cases h : ke = k <;> simp [dModify, h, ih]

theorem dModify_congr (d : Dict) (k : String) (f g : JSON → JSON)
    (h : f (dGet d k) = g (dGet d k)) : dModify d k f = dModify d k g := by
  induction d with
  | nil => rfl
  | cons e rest ih =>
    obtain ⟨ke, v⟩ := e
    by_cases hk : ke = k
    · subst hk
      simp [dModify, dGet] at h ⊢
      exact h
    · simp [dModify, dGet, hk] at h ⊢
      exact ih h

theorem dInsert_idem (d : Dict) (k : String) (v : JSON) :
    dInsert (dInsert d k v) k v = dInsert d k v := by
  induction d with
  | nil => simp [dInsert]
  | cons e rest ih =>
    obtain ⟨ke, w⟩ := e
    by_cases h : ke = k <;> simp [dInsert, h, ih]

theorem patchOneChecksumSchema_fixed (nm : String) (s s' : JSON)
    (h : patchOneChecksumSchema nm s = .ok s') : patchOneChecksumSchema nm s' = .ok s' := by
  rw [patchOneChecksumSchema.eq_def] at h
  cases s with
  | obj sd =>
    dsimp only at h
    by_cases hs : dMem sd "$schema" = true
    · rw [if_pos hs] at h
      by_cases hm : pyEq (dGet sd "$schema") (.s "/metaschema-1.json") = true
      · rw [if_pos hm] at h
        by_cases hp : dMem sd "properties" = true
        · rw [if_pos hp] at h
          cases hpv : dGet sd "properties" with
          | obj pd =>
            rw [hpv] at h
            dsimp only at h
            injection h with h'
            rw [← h']
            rw [patchOneChecksumSchema.eq_def]
            dsimp only
            rw [if_pos (by rw [dMem_dModify]; exact hs)]
            rw [dGet_dModify_ne sd "properties" "$schema" _ (by decide), if_pos hm]
            rw [if_pos (by rw [dMem_dModify]; exact hp)]
            rw [dGet_dModify_same sd "properties" _ hp]
            dsimp only
            rw [dModify_dModify]
            have hcg : dModify sd "properties"
                (fun v => JSON.obj (dInsert (dInsert pd nm CHECKSUM_FIELD_SCHEMA)
                  nm CHECKSUM_FIELD_SCHEMA)) =
                dModify sd "properties" (fun _ => JSON.obj (dInsert pd nm CHECKSUM_FIELD_SCHEMA)) :=
              dModify_congr _ _ _ _ (by rw [dInsert_idem])
            rw [hcg]
            rfl
          | null => rw [hpv] at h; injection h
          | b v => rw [hpv] at h; injection h
          | i v => rw [hpv] at h; injection h
          | s v => rw [hpv] at h; injection h
          | arr l => rw [hpv] at h; injection h
        · rw [if_neg hp] at h
          injection h
      · rw [if_neg hm] at h
        injection h with h'
        rw [← h']
        rw [patchOneChecksumSchema.eq_def]
        dsimp only
        rw [if_pos hs, if_neg hm]
        rfl
    · rw [if_neg hs] at h
      injection h
  | null => injection h
  | b v => injection h
  | i v => injection h
  | s v => injection h
  | arr l => injection h

theorem patchSchemaChecksumField_fixed (nm : String) :
    ∀ (schemas out : Dict), patchSchemaChecksumField schemas nm = .ok out →
      patchSchemaChecksumField out nm = .ok out := by
  intro schemas
  induction schemas with
  | nil =>
    intro out h
    injection h with h'
    rw [← h']
    rfl
  | cons e rest ih =>
    intro out h
    obtain ⟨p, s⟩ := e
    rw [patchSchemaChecksumField] at h
    cases h1 : patchOneChecksumSchema nm s with
    | error e' => rw [h1] at h; injection h
    | ok s' =>
      rw [h1] at h
      dsimp only at h
      cases h2 : patchSchemaChecksumField rest nm with
      | error e' => rw [h2] at h; injection h
      | ok rest' =>
        rw [h2] at h
        dsimp only at h
        injection h with h'
        rw [← h']
        rw [patchSchemaChecksumField]
        rw [patchOneChecksumSchema_fixed nm s s' h1]
        dsimp only
        rw [ih rest' h2]
        rfl

theorem countP_eq_zero_of_not_dMem (d : Dict) (k : String) (h : dMem d k = false) :
    (d.countP fun e => decide (e.1 = k)) = 0 := by
  induction d with
  | nil => rfl
  | cons e rest ih =>
    obtain ⟨ke, v⟩ := e
    rw [dMem] at h
    simp only [Bool.or_eq_false_iff] at h
    rw [List.countP_cons]
    have hke : (decide (ke = k) : Bool) = false := by
      simpa using h.1
    simp [hke, ih h.2]

theorem dInsert_countP (d : Dict) (k : String) (v : JSON) :
    ((dInsert d k v).countP fun e => decide (e.1 = k)) =
      if dMem d k then d.countP (fun e => decide (e.1 = k))
      else d.countP (fun e => decide (e.1 = k)) + 1 := by
  induction d with
  | nil => simp [dInsert, dMem, List.countP_cons]
  | cons e rest ih =>
    obtain ⟨ke, w⟩ := e
    by_cases h : ke = k
    · subst h
      simp [dInsert, dMem, List.countP_cons]
    · simp only [dInsert, if_neg h, dMem, List.countP_cons]
      have hke : (decide (ke = k) : Bool) = false := by simpa using h
      simp [hke, ih]

theorem countP_pos_of_dMem (d : Dict) (k : String) (h : dMem d k = true) :
    1 ≤ (d.countP fun e => decide (e.1 = k)) := by
  induction d with
  | nil => simp [dMem] at h
  | cons e rest ih =>
    obtain ⟨ke, v⟩ := e
    rw [dMem] at h
    rw [List.countP_cons]
    by_cases hke : ke = k
    · simp [hke]
    · have hr : dMem rest k = true := by
        simp only [Bool.or_eq_true] at h
        rcases h with h | h
        · exact absurd (by simpa using h) hke
        · exact h
      have := ih hr
      omega

/-- C5 (amended): the patch layer of the postprocessor is idempotent and
never duplicates a schema property declaration — re-running the checksum
schema patch on its own output is the identity, and a Python dict assignment
(`dInsert`) of the checksum or identifier property into a properties dict
that binds each key at most once leaves the key bound exactly once.  Full
double-run idempotence of `postprocess_bundle` fails, as the counterexample
shows: the injected `__identifier` fields are traversed by the second run
and join its context-unique groups whenever the catalog declares a
unique/context-unique field with the reserved name `__identifier`, and the
recomputed identifiers then differ. -/
theorem C5_amended_patch_layer_idempotence :
    (∀ (nm : String) (schemas out : Dict),
      patchSchemaChecksumField schemas nm = .ok out →
      patchSchemaChecksumField out nm = .ok out) ∧
    (∀ (pd : Dict) (k : String) (v : JSON),
      (pd.countP fun e => decide (e.1 = k)) ≤ 1 →
      ((dInsert pd k v).countP fun e => decide (e.1 = k)) = 1) := by
  refine ⟨fun nm => patchSchemaChecksumField_fixed nm, ?_⟩
  intro pd k v hle
  rw [dInsert_countP]
  cases hm : dMem pd k with
  | false =>
    have h0 := countP_eq_zero_of_not_dMem pd k hm
    simp [h0]
  | true =>
    have h1 := countP_pos_of_dMem pd k hm
    simp only [if_true]
    omega

def schemasW5 : Dict :=
  [("/m.json", .obj [("$schema", .s "/metaschema-1.json"), ("properties", .obj [])])]

def schemasW5x : Dict := (patchSchemaChecksumField schemasW5 "csum").toOption.getD []

theorem C5_witness :
    patchSchemaChecksumField schemasW5 "csum" = .ok schemasW5x ∧
    patchSchemaChecksumField schemasW5x "csum" = .ok schemasW5x ∧
    ((dInsert [] "csum" CHECKSUM_FIELD_SCHEMA).countP fun e => decide (e.1 = "csum")) = 1 :=
  ⟨rfl, C5_amended_patch_layer_idempotence.1 "csum" schemasW5 schemasW5x rfl,
   C5_amended_patch_layer_idempotence.2 [] "csum" CHECKSUM_FIELD_SCHEMA (by decide)⟩
